import Mathlib

/-!
The single-slot model registry of `server/state`.

A shallow embedding of `server/state/llm_sync.go` (the `syncLLM` wrapper) and
`server/state/state.go` (the package-level slot `loaded` with `Load`, `load`,
`State.Close`, `State.ResetExpireTimer`, `State.Runner` and the idle-timer
callback), followed by theorems about them.

The model is sequential: every operation runs to completion on a `World`,
which holds the memory of `syncLLM` objects, the chronological log of calls made
to code outside the package (`llm.New` and the methods of the wrapped `llm.LLM`),
and the slot `loaded`.  Mutexes are not represented.  The clock reading
`time.Now()` is an explicit argument `now` of the operations that read it.
-/

namespace OllamaState

/-! ## Values of the Go runtime and of other packages -/

/-- A `time.Time`, as the number of nanoseconds since the zero time `time.Time{}`. -/
abbrev Time := Int

/-- A `time.Duration` in nanoseconds (it may be negative). -/
abbrev Duration := Int

/-- The identity of a value behind the interface `llm.LLM` as produced by `llm.New`. -/
abbrev Handle := Nat

/-- The address of a `syncLLM` object (a `*syncLLM`). -/
abbrev Ptr := Nat

/-- A Go slice: `none` is the nil slice, `some xs` a non-nil slice with elements `xs`.
`reflect.DeepEqual` tells the nil slice from the empty one, as equality here does. -/
abbrev Slice (α : Type) := Option (List α)

/-- A `context.Context`; the package only passes it through. -/
abbrev Context := Nat

/-- Modelled from the spec: `llm.PredictOpts` is declared in package `llm`, outside the
sources at hand; the wrapper passes the value through unread, so a code stands for it. -/
abbrev PredictOpts := Nat

/-- Modelled from the spec: `llm.PredictResult`, the items streamed to the callback of
`Predict`; declared in package `llm`, passed through unread. -/
abbrev PredictResult := Nat

/-- A `float64`, by its bit pattern; the wrapper never computes with it. -/
abbrev Float64 := Nat

/-- A Go `error` value.  `sentinel` is a package-level `errors.New` variable, identified
by its name; `errorf` is the result of `fmt.Errorf` without `%w` (no `Unwrap`);
`wrapped` is an error whose `Unwrap` returns `inner`. -/
inductive GoError where
  | sentinel (name : String) (msg : String)
  | errorf (msg : String)
  | wrapped (msg : String) (inner : GoError)
deriving DecidableEq, Repr

/-- The method `Error()`. -/
def GoError.Error : GoError → String
  | .sentinel _ msg => msg
  | .errorf msg => msg
  | .wrapped msg _ => msg

/-- The function `errors.Is(err, target)`: `err` or an error in its `Unwrap` chain is
`target`.  Errors with an `Is` method of their own or with a multiple `Unwrap` do not
occur among `GoError` values. -/
def errorsIs : GoError → GoError → Bool
  | .sentinel name msg, target => decide (GoError.sentinel name msg = target)
  | .errorf msg, target => decide (GoError.errorf msg = target)
  | .wrapped msg inner, target =>
      decide (GoError.wrapped msg inner = target) || errorsIs inner target

/-- Whether `sub` occurs in `s` as a contiguous run, on character lists. -/
def containsChars : List Char → List Char → Bool
  | [], sub => sub.isEmpty
  | c :: cs, sub => sub.isPrefixOf (c :: cs) || containsChars cs sub

/-- The function `strings.Contains(s, substr)`. -/
def stringsContains (s substr : String) : Bool :=
  containsChars s.toList substr.toList

/-- The variable `ErrLLMClosed = errors.New("llm closed")`. -/
def ErrLLMClosed : GoError := .sentinel "state.ErrLLMClosed" "llm closed"

/-- Modelled from the spec: the struct `Model` is declared in another file of package
`state`, outside the sources at hand.  These are the fields `state.go` reads: the primary
path, the two lists of auxiliary paths, and the short name. -/
structure Model where
  ModelPath : String
  AdapterPaths : Slice String
  ProjectorPaths : Slice String
  ShortName : String
deriving DecidableEq, Repr

/-- A Go floating-point value, as far as `==` tells values apart: a NaN, a zero of either
sign, or any other value (a nonzero number or an infinity) by its bit pattern. -/
inductive GoFloat where
  | nan (bits : Nat)
  | zero (negative : Bool)
  | number (bits : Nat)
deriving DecidableEq, Repr

/-- The operator `==` on floating-point values: a NaN equals nothing, itself included;
the two zeros are equal; other values are equal when they are the same value. -/
def GoFloat.eq : GoFloat → GoFloat → Bool
  | .zero _, .zero _ => true
  | .number a, .number b => decide (a = b)
  | _, _ => false

/-- Modelled from the spec: the struct `api.Runner` (the options fixed when a model is
loaded) is declared in package `api`, outside the sources at hand.  `Fixed` is a code of
its fields that `reflect.DeepEqual` compares exactly (integers, booleans); `Floats` are
its floating-point fields, in the order of declaration. -/
structure Runner where
  Fixed : Nat
  Floats : List GoFloat
deriving DecidableEq, Repr

/-- Field by field `==` on the floating-point fields of two values of one struct type. -/
def floatsDeepEqual : List GoFloat → List GoFloat → Bool
  | [], [] => true
  | a :: as, b :: bs => a.eq b && floatsDeepEqual as bs
  | _, _ => false

/-- The function `reflect.DeepEqual` on two `api.Runner` values: every field deeply
equal, the floating-point ones by `==`.  It is not reflexive: a value with a NaN field is
not deeply equal to itself. -/
def deepEqualRunner (a b : Runner) : Bool :=
  decide (a.Fixed = b.Fixed) && floatsDeepEqual a.Floats b.Floats

/-- Modelled from the spec: the struct `api.Options` is declared in package `api`, outside
the sources at hand.  `state.go` reads its component `Runner`; `Rest` is a code of all its
other fields. -/
structure Options where
  Runner : Runner
  Rest : Nat
deriving DecidableEq, Repr

/-! ## Calls that leave the package -/

/-- A call to code outside the package: the constructor `llm.New` or a method of a
wrapped `llm.LLM`. -/
inductive Call where
  | New (modelPath : String) (adapters : Slice String) (projectors : Slice String)
      (opts : Options)
  | Predict (h : Handle) (ctx : Context) (opts : PredictOpts)
  | Embedding (h : Handle) (ctx : Context) (s2 : String)
  | Encode (h : Handle) (ctx : Context) (s2 : String)
  | Decode (h : Handle) (ctx : Context) (i : Slice Int)
  | Close (h : Handle)
deriving DecidableEq, Repr

/-- What the code outside the package answers.  Each answer may depend on the log of the
calls made before it.  `New` answers with a handle or an error; `Predict` answers with the
results it streams to the callback and its error; the others with their Go result pair.
`ErrUnsupportedFormat` is the variable `llm.ErrUnsupportedFormat`. -/
structure Env where
  New : List Call → String → Slice String → Slice String → Options → Except GoError Handle
  Predict : List Call → Handle → Context → PredictOpts → List PredictResult × Option GoError
  Embedding : List Call → Handle → Context → String → Slice Float64 × Option GoError
  Encode : List Call → Handle → Context → String → Slice Int × Option GoError
  Decode : List Call → Handle → Context → Slice Int → String × Option GoError
  ErrUnsupportedFormat : GoError

/-! ## The state of the package -/

/-- The struct `syncLLM` without its mutex. -/
structure syncLLM where
  llm : Handle
  closed : Bool
deriving DecidableEq, Repr

/-- A `*time.Timer` made by `time.AfterFunc`: `deadline = some d` when it is armed to
fire at `d`, `none` when it is stopped or has fired. -/
structure Timer where
  id : Nat
  deadline : Option Time
deriving DecidableEq, Repr

/-- The struct `State` without its mutexes; nil pointers are `none`. -/
structure State where
  runner : Option Ptr
  expireAt : Time
  expireTimer : Option Timer
  Model : Option Model
  Options : Option Options
deriving DecidableEq, Repr

/-- The memory of `syncLLM` objects with the next free address, the log of outside calls
(oldest first), the number of timers created, and the package variable `loaded`. -/
structure World where
  heap : Ptr → syncLLM
  next : Ptr
  calls : List Call
  timers : Nat
  loaded : State

/-- The state of a process that has just started: nothing allocated, nothing called,
`loaded` the zero value of `State`. -/
def World.init : World where
  heap := fun _ => { llm := 0, closed := false }
  next := 0
  calls := []
  timers := 0
  loaded := { runner := none, expireAt := 0, expireTimer := none, Model := none,
              Options := none }

/-! ## `llm_sync.go` -/

/-- The function `newSyncLLM`: allocates a wrapper with `closed` false. -/
def newSyncLLM (w : World) (llm : Handle) : World × Ptr :=
  ({ w with heap := Function.update w.heap w.next { llm := llm, closed := false },
            next := w.next + 1 }, w.next)

/-- The method `(*syncLLM).Predict`; the first component of the result is the list of
items the callback `f` received. -/
def syncLLM.Predict (env : Env) (w : World) (s : Ptr) (ctx : Context) (opts : PredictOpts) :
    World × (List PredictResult × Option GoError) :=
  if (w.heap s).closed then (w, ([], some ErrLLMClosed))
  else ({ w with calls := w.calls ++ [Call.Predict (w.heap s).llm ctx opts] },
        env.Predict w.calls (w.heap s).llm ctx opts)

/-- The method `(*syncLLM).Embedding`. -/
def syncLLM.Embedding (env : Env) (w : World) (s : Ptr) (ctx : Context) (s2 : String) :
    World × (Slice Float64 × Option GoError) :=
  if (w.heap s).closed then (w, (none, some ErrLLMClosed))
  else ({ w with calls := w.calls ++ [Call.Embedding (w.heap s).llm ctx s2] },
        env.Embedding w.calls (w.heap s).llm ctx s2)

/-- The method `(*syncLLM).Encode`. -/
def syncLLM.Encode (env : Env) (w : World) (s : Ptr) (ctx : Context) (s2 : String) :
    World × (Slice Int × Option GoError) :=
  if (w.heap s).closed then (w, (none, some ErrLLMClosed))
  else ({ w with calls := w.calls ++ [Call.Encode (w.heap s).llm ctx s2] },
        env.Encode w.calls (w.heap s).llm ctx s2)

/-- The method `(*syncLLM).Decode`. -/
def syncLLM.Decode (env : Env) (w : World) (s : Ptr) (ctx : Context) (i : Slice Int) :
    World × (String × Option GoError) :=
  if (w.heap s).closed then (w, ("", some ErrLLMClosed))
  else ({ w with calls := w.calls ++ [Call.Decode (w.heap s).llm ctx i] },
        env.Decode w.calls (w.heap s).llm ctx i)

/-- The method `(*syncLLM).Close`: calls `Close` on the wrapped value, then sets
`closed`. -/
def syncLLM.Close (w : World) (s : Ptr) : World :=
  { w with calls := w.calls ++ [Call.Close (w.heap s).llm],
           heap := Function.update w.heap s { llm := (w.heap s).llm, closed := true } }

/-- The method `(*syncLLM).Close` called `n` times in a row on the same wrapper. -/
def closeTimes (w : World) (s : Ptr) : Nat → World
  | 0 => w
  | n + 1 => syncLLM.Close (closeTimes w s n) s

/-! ## `state.go` -/

/-- The instant a timer set for `d` from `now` fires: a duration that is not positive
means at once. -/
def timerWhen (now : Time) (d : Duration) : Time :=
  if d ≤ 0 then now else now + d

/-- The method `(*time.Timer).Reset`. -/
def Timer.Reset (t : Timer) (now : Time) (d : Duration) : Timer :=
  { t with deadline := some (timerWhen now d) }

/-- The method `(*time.Timer).Stop`. -/
def Timer.Stop (t : Timer) : Timer :=
  { t with deadline := none }

/-- The method `(*State).Runner` on `loaded`. -/
def State.Runner (w : World) : Option Ptr :=
  w.loaded.runner

/-- The method `(*State).ResetExpireTimer` on `loaded`. -/
def State.ResetExpireTimer (w : World) (sessionDuration : Duration) (now : Time) : World :=
  { w with loaded :=
    { w.loaded with
      expireAt := now + sessionDuration,
      expireTimer := w.loaded.expireTimer.map (fun t => t.Reset now sessionDuration) } }

/-- The three assignments `runner = nil`, `Model = nil`, `Options = nil`. -/
def clearSlot (w : World) : World :=
  { w with loaded := { w.loaded with runner := none, Model := none, Options := none } }

/-- The method `(*State).Close` on `loaded`. -/
def State.Close (w : World) : World :=
  let w1 := match w.loaded.runner with
    | some r => syncLLM.Close w r
    | none => w
  let w2 := clearSlot w1
  { w2 with loaded :=
    { w2.loaded with
      expireAt := 0,
      expireTimer := w2.loaded.expireTimer.map Timer.Stop } }

/-- The function `Close`. -/
def Close (w : World) : World :=
  State.Close w

/-- The condition `needLoad` of `Load`, evaluated left to right with the short circuit
of `||`.  `none` is the nil-pointer panic of reading a promoted field through a nil
`*Model` or `*api.Options`. -/
def needLoad (s : State) (model : Model) (opts : Options) : Option Bool :=
  match s.runner with
  | none => some true
  | some _ =>
    match s.Model with
    | none => none
    | some m =>
      if m.ModelPath ≠ model.ModelPath then some true
      else if m.AdapterPaths ≠ model.AdapterPaths then some true
      else match s.Options with
        | none => none
        | some o => some (!deepEqualRunner o.Runner opts.Runner)

/-- The error `load` returns for the constructor error `err`. -/
def loadError (env : Env) (model : Model) (err : GoError) : GoError :=
  if errorsIs env.ErrUnsupportedFormat err
      || stringsContains err.Error "failed to load model" then
    .errorf (err.Error ++ ": this model may be incompatible with your version of Ollama. If you previously pulled this model, try updating it by running `ollama pull " ++ model.ShortName ++ "`")
  else err

/-- The first block of `load`: when a runner is resident, close it and clear the slot. -/
def loadRelease (w : World) : World :=
  match w.loaded.runner with
  | some r => clearSlot (syncLLM.Close w r)
  | none => w

/-- The log entry of the constructor call `load` makes for `model` and `opts`. -/
def newCall (model : Model) (opts : Options) : Call :=
  .New model.ModelPath model.AdapterPaths model.ProjectorPaths opts

/-- The function `load`; the second component is the returned error (`none` is nil). -/
def load (env : Env) (w : World) (model : Model) (opts : Options) : World × Option GoError :=
  let w1 := loadRelease w
  let w2 := { w1 with calls := w1.calls ++ [newCall model opts] }
  match env.New w1.calls model.ModelPath model.AdapterPaths model.ProjectorPaths opts with
  | .error err => (w2, some (loadError env model err))
  | .ok llmRunner =>
    let w3 := { w2 with loaded := { w2.loaded with Model := some model } }
    let (w4, p) := newSyncLLM w3 llmRunner
    let w5 := { w4 with loaded := { w4.loaded with runner := some p } }
    ({ w5 with loaded := { w5.loaded with Options := some opts } }, none)

/-- The worlds `load` passes through, one after each statement that changes the world,
in order: the four statements of the release block (when a runner is resident), the
constructor call, and on success the three statements that install the result (the
allocation by `newSyncLLM` and the assignment of `runner` are listed separately). -/
def loadStates (env : Env) (w : World) (model : Model) (opts : Options) : List World :=
  let rel : List World := match w.loaded.runner with
    | some r =>
      let a := syncLLM.Close w r
      let b := { a with loaded := { a.loaded with runner := none } }
      let c := { b with loaded := { b.loaded with Model := none } }
      let d := { c with loaded := { c.loaded with Options := none } }
      [a, b, c, d]
    | none => []
  let w1 := loadRelease w
  let w2 := { w1 with calls := w1.calls ++ [newCall model opts] }
  match env.New w1.calls model.ModelPath model.AdapterPaths model.ProjectorPaths opts with
  | .error _ => rel ++ [w2]
  | .ok llmRunner =>
    let w3 := { w2 with loaded := { w2.loaded with Model := some model } }
    let w4 := (newSyncLLM w3 llmRunner).1
    let w5 := { w4 with loaded := { w4.loaded with runner := some (newSyncLLM w3 llmRunner).2 } }
    let w6 := { w5 with loaded := { w5.loaded with Options := some opts } }
    rel ++ [w2, w3, w4, w5, w6]

/-- The function literal given to `time.AfterFunc` in `Load`, run at clock reading
`now`. -/
def timerCallback (w : World) (now : Time) : World :=
  if now < w.loaded.expireAt then w
  else
    clearSlot (match w.loaded.runner with
      | some r => syncLLM.Close w r
      | none => w)

/-- The part of `Load` after the reload: set `expireAt`, create the timer when there is
none, and reset it. -/
def refreshTimer (w : World) (sessionDuration : Duration) (now : Time) : World :=
  let w1 := { w with loaded := { w.loaded with expireAt := now + sessionDuration } }
  let w2 := match w1.loaded.expireTimer with
    | none =>
      { w1 with
        timers := w1.timers + 1,
        loaded := { w1.loaded with
          expireTimer := some { id := w1.timers, deadline := some (timerWhen now sessionDuration) } } }
    | some _ => w1
  { w2 with loaded :=
    { w2.loaded with
      expireTimer := w2.loaded.expireTimer.map (fun t => t.Reset now sessionDuration) } }

/-- The function `Load` for a non-nil `model`.  The outer `none` is a panic; in the
result, the error `none` stands for the return `&loaded, nil` and `some err` for
`nil, err`. -/
def Load (env : Env) (w : World) (model : Model) (opts : Options)
    (sessionDuration : Duration) (now : Time) : Option (World × Option GoError) :=
  match needLoad w.loaded model opts with
  | none => none
  | some false => some (refreshTimer w sessionDuration now, none)
  | some true =>
    match load env w model opts with
    | (w1, some err) => some (w1, some err)
    | (w1, none) => some (refreshTimer w1 sessionDuration now, none)

/-- The runtime firing the timer of `loaded` at `now`: possible when the timer is armed
and its deadline has come; the timer is then no longer armed and the callback runs. -/
def timerFire (w : World) (now : Time) : Option World :=
  match w.loaded.expireTimer with
  | some t =>
    match t.deadline with
    | some d =>
      if d ≤ now then
        some (timerCallback
          { w with loaded := { w.loaded with expireTimer := some { t with deadline := none } } }
          now)
      else none
    | none => none
  | none => none

/-- The number of constructor calls in a log. -/
def countNew : List Call → Nat
  | [] => 0
  | .New _ _ _ _ :: cs => countNew cs + 1
  | _ :: cs => countNew cs

/-- The number of `Close` calls on the handle `h` in a log. -/
def countClose (h : Handle) : List Call → Nat
  | [] => 0
  | .Close k :: cs => (if k = h then 1 else 0) + countClose h cs
  | _ :: cs => countClose h cs

/-- A run of `Load` calls with the same `model` and `opts`, one for each pair of a
session duration and a clock reading; `none` when one of them panics or returns an
error. -/
def loadAll (env : Env) (model : Model) (opts : Options) :
    World → List (Duration × Time) → Option World
  | w, [] => some w
  | w, (d, now) :: rest =>
    match Load env w model opts d now with
    | some (w1, none) => loadAll env model opts w1 rest
    | _ => none

/-! ## Runs of operations -/

/-- One operation on the package state: an operation of the registry, the timer callback
(run when the runtime fires the timer, `timerFire`, or late, after other operations have
come in between, `timerCallback`), or a read through a handle a caller still holds. -/
inductive Op where
  | Load (model : Model) (opts : Options) (sessionDuration : Duration) (now : Time)
  | Close
  | ResetExpireTimer (sessionDuration : Duration) (now : Time)
  | timerFire (now : Time)
  | timerCallback (now : Time)
  | Predict (s : Ptr) (ctx : Context) (opts : PredictOpts)
  | Embedding (s : Ptr) (ctx : Context) (s2 : String)
  | Encode (s : Ptr) (ctx : Context) (s2 : String)
  | Decode (s : Ptr) (ctx : Context) (i : Slice Int)

/-- The world after one operation; `none` when it panics or, for `timerFire`, when the
timer is not due. -/
def Op.apply (env : Env) (w : World) : Op → Option World
  | .Load model opts d now => (OllamaState.Load env w model opts d now).map Prod.fst
  | .Close => some (OllamaState.Close w)
  | .ResetExpireTimer d now => some (State.ResetExpireTimer w d now)
  | .timerFire now => OllamaState.timerFire w now
  | .timerCallback now => some (OllamaState.timerCallback w now)
  | .Predict s ctx opts => some (syncLLM.Predict env w s ctx opts).1
  | .Embedding s ctx s2 => some (syncLLM.Embedding env w s ctx s2).1
  | .Encode s ctx s2 => some (syncLLM.Encode env w s ctx s2).1
  | .Decode s ctx i => some (syncLLM.Decode env w s ctx i).1

/-- The world after a run of operations, in order. -/
def runOps (env : Env) : World → List Op → Option World
  | w, [] => some w
  | w, op :: rest =>
    match op.apply env w with
    | some w1 => runOps env w1 rest
    | none => none

/-- The wrapper at `p` has been allocated and its `closed` flag is set. -/
def ClosedAt (w : World) (p : Ptr) : Prop :=
  p < w.next ∧ (w.heap p).closed = true

instance (w : World) (p : Ptr) : Decidable (ClosedAt w p) :=
  inferInstanceAs (Decidable (p < w.next ∧ (w.heap p).closed = true))

/-! ## Properties of the slot -/

/-- The handle, the descriptor and the options of the slot are all present or all
absent. -/
def Coherent (s : State) : Prop :=
  s.runner.isSome = s.Model.isSome ∧ s.runner.isSome = s.Options.isSome

instance (s : State) : Decidable (Coherent s) :=
  inferInstanceAs (Decidable (s.runner.isSome = s.Model.isSome ∧ s.runner.isSome = s.Options.isSome))

/-- Among the wrappers created so far (the addresses below `next`), the open ones are
exactly the one the slot holds, and the slot holds a created wrapper or none. -/
def ResidentIffOpen (w : World) : Prop :=
  (∀ p, w.loaded.runner = some p → p < w.next) ∧
  (∀ p, p < w.next → ((w.heap p).closed = false ↔ w.loaded.runner = some p))

/-- The invariant of the package state: the slot is coherent and the open wrappers are
exactly the resident one. -/
def Inv (w : World) : Prop :=
  Coherent w.loaded ∧ ResidentIffOpen w

/-- The identity of the timer the slot holds, if it holds one. -/
def timerId (w : World) : Option Nat :=
  w.loaded.expireTimer.map (fun t => t.id)

/-! ## Locks -/

/-- The mutexes the operations work with: `loaded.mu`, `loaded.tmu`, and the `mu` of the
`syncLLM` an operation calls into (an operation calls into one wrapper at most). -/
inductive Mutex where
  | mu
  | tmu
  | wrapper
deriving DecidableEq, Repr

/-- A call of a method of `sync.RWMutex`. -/
inductive LockEv where
  | Lock (m : Mutex)
  | Unlock (m : Mutex)
  | RLock (m : Mutex)
  | RUnlock (m : Mutex)
deriving DecidableEq, Repr

/-- The mutex calls of a read method of `syncLLM` (`RLock`, deferred `RUnlock`). -/
def syncLLM.readLocks : List LockEv :=
  [.RLock .wrapper, .RUnlock .wrapper]

/-- The mutex calls of `(*syncLLM).Close` (`Lock`, deferred `Unlock`). -/
def syncLLM.CloseLocks : List LockEv :=
  [.Lock .wrapper, .Unlock .wrapper]

/-- The mutex calls of `runner.Close()` guarded by `runner != nil`. -/
def runnerCloseLocks (w : World) : List LockEv :=
  match w.loaded.runner with
  | some _ => syncLLM.CloseLocks
  | none => []

/-- The mutex calls of `(*State).Runner`. -/
def State.RunnerLocks : List LockEv :=
  [.RLock .mu, .RUnlock .mu]

/-- The mutex calls of `(*State).ResetExpireTimer`. -/
def State.ResetExpireTimerLocks : List LockEv :=
  [.Lock .tmu, .Unlock .tmu]

/-- The mutex calls of `(*State).Close`: `mu.Lock`, `tmu.Lock`, the body, then the
deferred unlocks in reverse order. -/
def State.CloseLocks (w : World) : List LockEv :=
  [.Lock .mu, .Lock .tmu] ++ runnerCloseLocks w ++ [.Unlock .tmu, .Unlock .mu]

/-- The mutex calls of `load`. -/
def loadLocks (w : World) : List LockEv :=
  [.Lock .mu] ++ runnerCloseLocks w ++ [.Unlock .mu]

/-- The mutex calls of `Load`: the read section around `needLoad`, then `load` when
needed, then the section on `tmu` unless `load` returned an error.  When `needLoad`
panics the read lock is left held. -/
def LoadLocks (env : Env) (w : World) (model : Model) (opts : Options) : List LockEv :=
  match needLoad w.loaded model opts with
  | none => [.RLock .mu]
  | some false => [.RLock .mu, .RUnlock .mu] ++ [.Lock .tmu, .Unlock .tmu]
  | some true =>
    [.RLock .mu, .RUnlock .mu] ++ loadLocks w ++
      (match (load env w model opts).2 with
        | some _ => []
        | none => [.Lock .tmu, .Unlock .tmu])

/-- The mutex calls of the timer callback run at `now`. -/
def timerCallbackLocks (w : World) (now : Time) : List LockEv :=
  [.Lock .mu] ++ (if now < w.loaded.expireAt then [] else runnerCloseLocks w) ++ [.Unlock .mu]

/-- The mutex calls of an operation started in the world `w`. -/
def Op.locks (env : Env) (w : World) : Op → List LockEv
  | .Load model opts _ _ => LoadLocks env w model opts
  | .Close => State.CloseLocks w
  | .ResetExpireTimer _ _ => State.ResetExpireTimerLocks
  | .timerFire now => timerCallbackLocks w now
  | .timerCallback now => timerCallbackLocks w now
  | .Predict _ _ _ => syncLLM.readLocks
  | .Embedding _ _ _ => syncLLM.readLocks
  | .Encode _ _ _ => syncLLM.readLocks
  | .Decode _ _ _ => syncLLM.readLocks

/-- The mutexes a goroutine holds after a mutex call, in the order it acquired them. -/
def heldAfter (held : List Mutex) : LockEv → List Mutex
  | .Lock m => held ++ [m]
  | .RLock m => held ++ [m]
  | .Unlock m => held.erase m
  | .RUnlock m => held.erase m

/-- The lists of held mutexes after each call of a sequence, starting from `held`. -/
def heldStates (held : List Mutex) : List LockEv → List (List Mutex)
  | [] => []
  | e :: es => heldAfter held e :: heldStates (heldAfter held e) es

/-- In a list of held mutexes: when `mu` and `tmu` are both held, `mu` was acquired
first. -/
def muFirst (held : List Mutex) : Bool :=
  !(held.contains .mu && held.contains .tmu) || decide (held.indexOf .mu < held.indexOf .tmu)

/-- No call of a sequence acquires `mu`, shared or exclusive, while `tmu` is held. -/
def noMuUnderTmu (held : List Mutex) : List LockEv → Bool
  | [] => true
  | e :: es =>
    (match e with
      | .Lock .mu => !held.contains .tmu
      | .RLock .mu => !held.contains .tmu
      | _ => true) && noMuUnderTmu (heldAfter held e) es

/-- The state of a `sync.RWMutex`: held by a writer, or by some number of readers. -/
structure RWMutex where
  writer : Bool
  readers : Nat
deriving DecidableEq, Repr

/-- The state of the three mutexes. -/
structure Locks where
  mu : RWMutex
  tmu : RWMutex
  wrapper : RWMutex
deriving DecidableEq, Repr

/-- All mutexes free. -/
def Locks.free : Locks :=
  { mu := { writer := false, readers := 0 }, tmu := { writer := false, readers := 0 },
    wrapper := { writer := false, readers := 0 } }

/-- The state of one mutex. -/
def Locks.get (l : Locks) : Mutex → RWMutex
  | .mu => l.mu
  | .tmu => l.tmu
  | .wrapper => l.wrapper

/-- The state of one mutex replaced. -/
def Locks.set (l : Locks) (m : Mutex) (v : RWMutex) : Locks :=
  match m with
  | .mu => { l with mu := v }
  | .tmu => { l with tmu := v }
  | .wrapper => { l with wrapper := v }

/-- One mutex call by a goroutine while no other goroutine runs: `none` when the call
blocks (`Lock` on a mutex that is held, `RLock` on a mutex held by a writer). -/
def lockStep (l : Locks) : LockEv → Option Locks
  | .Lock m =>
    if (l.get m).writer = false ∧ (l.get m).readers = 0 then
      some (l.set m { writer := true, readers := 0 })
    else none
  | .RLock m =>
    if (l.get m).writer = false then
      some (l.set m { writer := false, readers := (l.get m).readers + 1 })
    else none
  | .Unlock m => some (l.set m { writer := false, readers := (l.get m).readers })
  | .RUnlock m => some (l.set m { writer := (l.get m).writer, readers := (l.get m).readers - 1 })

/-- A sequence of mutex calls by one goroutine while no other goroutine runs: `none`
when one of them blocks, which is then for ever. -/
def lockRun : Locks → List LockEv → Option Locks
  | l, [] => some l
  | l, e :: es =>
    match lockStep l e with
    | some l1 => lockRun l1 es
    | none => none

/-! ## Concurrent calls of `Load` -/

/-- Where a goroutine stands in `Load`: before the read section, after it with the value
of `needLoad`, before the section on `tmu`, or returned (with the error, `none` for
nil). -/
inductive LoadPhase where
  | start
  | checked (needLoad : Bool)
  | refreshing
  | returned (err : Option GoError)
deriving DecidableEq, Repr

/-- A goroutine running `Load(model, opts, sessionDuration)`; `now` is the clock reading
it gets in the section on `tmu`. -/
structure LoadCall where
  model : Model
  opts : Options
  sessionDuration : Duration
  now : Time
  phase : LoadPhase
deriving DecidableEq, Repr

/-- The next section of a `Load` call, run as a whole: the read section computing
`needLoad` (held under `mu.RLock`), the call of `load` (under `mu.Lock`) or its
omission, the section on `tmu`.  `none` when the call has returned or panics. -/
def LoadCall.step (env : Env) (w : World) (c : LoadCall) : Option (World × LoadCall) :=
  match c.phase with
  | .start =>
    match needLoad w.loaded c.model c.opts with
    | none => none
    | some b => some (w, { c with phase := .checked b })
  | .checked false => some (w, { c with phase := .refreshing })
  | .checked true =>
    match load env w c.model c.opts with
    | (w1, some err) => some (w1, { c with phase := .returned (some err) })
    | (w1, none) => some (w1, { c with phase := .refreshing })
  | .refreshing =>
    some (refreshTimer w c.sessionDuration c.now, { c with phase := .returned none })
  | .returned _ => none

/-- A schedule of concurrent `Load` calls: each entry names the goroutine that runs its
next section.  `none` when an entry names no goroutine or one that cannot step. -/
def runSchedule (env : Env) : World → List LoadCall → List Nat → Option (World × List LoadCall)
  | w, cs, [] => some (w, cs)
  | w, cs, i :: rest =>
    match cs.get? i with
    | none => none
    | some c =>
      match c.step env w with
      | none => none
      | some (w1, c1) => runSchedule env w1 (cs.set i c1) rest

/-- A fresh call of `Load`. -/
def LoadCall.new (model : Model) (opts : Options) (sessionDuration : Duration) (now : Time) :
    LoadCall :=
  { model := model, opts := opts, sessionDuration := sessionDuration, now := now,
    phase := .start }

/-! ## Concrete inputs -/

/-- An outside world whose constructor always succeeds, handing out the handles
`1, 2, ...` in the order of the calls, and whose models answer with nothing. -/
def sampleEnv : Env where
  New := fun cs _ _ _ _ => .ok (countNew cs + 1)
  Predict := fun _ _ _ _ => ([], none)
  Embedding := fun _ _ _ _ => (some [], none)
  Encode := fun _ _ _ _ => (some [], none)
  Decode := fun _ _ _ _ => ("", none)
  ErrUnsupportedFormat := .sentinel "llm.ErrUnsupportedFormat" "unsupported model format"

/-- An outside world whose constructor succeeds on its first call, with the handle `1`,
and fails on every later call; up to the first constructor call it answers as
`sampleEnv` does. -/
def flakyEnv : Env where
  New := fun cs _ _ _ _ =>
    if countNew cs = 0 then .ok 1 else .error (.errorf "out of memory")
  Predict := fun _ _ _ _ => ([], none)
  Embedding := fun _ _ _ _ => (some [], none)
  Encode := fun _ _ _ _ => (some [], none)
  Decode := fun _ _ _ _ => ("", none)
  ErrUnsupportedFormat := .sentinel "llm.ErrUnsupportedFormat" "unsupported model format"

/-- A model with one projector. -/
def modelA : Model where
  ModelPath := "/models/a"
  AdapterPaths := none
  ProjectorPaths := some ["/projectors/1"]
  ShortName := "a"

/-- The model `modelA` with another projector. -/
def modelA2 : Model where
  ModelPath := "/models/a"
  AdapterPaths := none
  ProjectorPaths := some ["/projectors/2"]
  ShortName := "a"

/-- A model with another primary path. -/
def modelB : Model where
  ModelPath := "/models/b"
  AdapterPaths := none
  ProjectorPaths := none
  ShortName := "b"

/-- Some options. -/
def opts1 : Options where
  Runner := { Fixed := 1, Floats := [.number 10000, .zero false] }
  Rest := 0

/-- The options `opts1` with a change outside `Runner`. -/
def opts1b : Options where
  Runner := { Fixed := 1, Floats := [.number 10000, .zero false] }
  Rest := 1

/-- The options `opts1` with a change in `Runner`. -/
def opts2 : Options where
  Runner := { Fixed := 2, Floats := [.number 10000, .zero false] }
  Rest := 0

/-- The options `opts1` with a NaN in a floating-point field of `Runner`. -/
def optsNaN : Options where
  Runner := { Fixed := 1, Floats := [.nan 0, .zero false] }
  Rest := 0

/-- A world with one open wrapper, at address `0`, around the handle `7`. -/
def oneWrapper : World :=
  (newSyncLLM World.init 7).1

/-- The world after `Load(modelA, opts1, 5)` at clock reading `100` in a fresh process
whose constructor succeeds (`World.init` when that call does not return normally). -/
def afterLoadA : World :=
  match Load sampleEnv World.init modelA opts1 5 100 with
  | some (w, none) => w
  | _ => World.init

/-- An error that wraps `llm.ErrUnsupportedFormat`, as `fmt.Errorf` with `%w` makes
it. -/
def wrappedUnsupported : GoError :=
  .wrapped "unsupported model format: legacy file" sampleEnv.ErrUnsupportedFormat

/-- An outside world whose constructor always fails with `wrappedUnsupported`. -/
def unsupportedEnv : Env where
  New := fun _ _ _ _ _ => .error wrappedUnsupported
  Predict := fun _ _ _ _ => ([], none)
  Embedding := fun _ _ _ _ => (some [], none)
  Encode := fun _ _ _ _ => (some [], none)
  Decode := fun _ _ _ _ => ("", none)
  ErrUnsupportedFormat := sampleEnv.ErrUnsupportedFormat

/-- The mutexes with `loaded.mu` held by a writer. -/
def muWriteHeld : Locks :=
  Locks.free.set .mu { writer := true, readers := 0 }

/-- The mutexes with `loaded.mu` held by one reader. -/
def muReadHeld : Locks :=
  Locks.free.set .mu { writer := false, readers := 1 }

/-- Two goroutines calling `Load(modelA, opts1, 5)`. -/
def twoLoads : List LoadCall :=
  [LoadCall.new modelA opts1 5 100, LoadCall.new modelA opts1 5 100]

/-! ## Lemmas on single operations -/

theorem syncLLM_Close_calls (w : World) (s : Ptr) :
    (syncLLM.Close w s).calls = w.calls ++ [Call.Close (w.heap s).llm] := rfl

theorem syncLLM_Close_heap_self (w : World) (s : Ptr) :
    (syncLLM.Close w s).heap s = { llm := (w.heap s).llm, closed := true } := by
  simp [syncLLM.Close]

theorem syncLLM_Close_heap_closed (w : World) (s q : Ptr) (h : (w.heap q).closed = true) :
    ((syncLLM.Close w s).heap q).closed = true := by
  by_cases hq : q = s
  · subst hq; simp [syncLLM.Close]
  · simp [syncLLM.Close, Function.update, hq, h]

theorem syncLLM_Close_loaded (w : World) (s : Ptr) :
    (syncLLM.Close w s).loaded = w.loaded := rfl

theorem syncLLM_Close_next (w : World) (s : Ptr) :
    (syncLLM.Close w s).next = w.next := rfl

theorem closeTimes_llm (w : World) (s : Ptr) (n : Nat) :
    ((closeTimes w s n).heap s).llm = (w.heap s).llm := by
  induction n with
  | zero => rfl
  | succ n ih => simp [closeTimes, syncLLM.Close, ih]

theorem closed_reads_fail (env : Env) (w : World) (s : Ptr)
    (h : (w.heap s).closed = true) (ctx : Context) (popts : PredictOpts) (s2 : String)
    (i : Slice Int) :
    syncLLM.Predict env w s ctx popts = (w, ([], some ErrLLMClosed)) ∧
    syncLLM.Embedding env w s ctx s2 = (w, (none, some ErrLLMClosed)) ∧
    syncLLM.Encode env w s ctx s2 = (w, (none, some ErrLLMClosed)) ∧
    syncLLM.Decode env w s ctx i = (w, ("", some ErrLLMClosed)) := by
  simp [syncLLM.Predict, syncLLM.Embedding, syncLLM.Encode, syncLLM.Decode, h]

theorem refreshTimer_calls (w : World) (d : Duration) (now : Time) :
    (refreshTimer w d now).calls = w.calls := by
  cases h : w.loaded.expireTimer <;> simp [refreshTimer, h]

theorem refreshTimer_heap (w : World) (d : Duration) (now : Time) :
    (refreshTimer w d now).heap = w.heap := by
  cases h : w.loaded.expireTimer <;> simp [refreshTimer, h]

theorem refreshTimer_next (w : World) (d : Duration) (now : Time) :
    (refreshTimer w d now).next = w.next := by
  cases h : w.loaded.expireTimer <;> simp [refreshTimer, h]

theorem refreshTimer_runner (w : World) (d : Duration) (now : Time) :
    (refreshTimer w d now).loaded.runner = w.loaded.runner := by
  cases h : w.loaded.expireTimer <;> simp [refreshTimer, h]

theorem refreshTimer_Model (w : World) (d : Duration) (now : Time) :
    (refreshTimer w d now).loaded.Model = w.loaded.Model := by
  cases h : w.loaded.expireTimer <;> simp [refreshTimer, h]

theorem refreshTimer_Options (w : World) (d : Duration) (now : Time) :
    (refreshTimer w d now).loaded.Options = w.loaded.Options := by
  cases h : w.loaded.expireTimer <;> simp [refreshTimer, h]

theorem refreshTimer_expireAt (w : World) (d : Duration) (now : Time) :
    (refreshTimer w d now).loaded.expireAt = now + d := by
  cases h : w.loaded.expireTimer <;> simp [refreshTimer, h]

theorem needLoad_empty (s : State) (model : Model) (opts : Options) (h : s.runner = none) :
    needLoad s model opts = some true := by
  simp [needLoad, h]

theorem needLoad_resident (s : State) (p : Ptr) (m model : Model) (o opts : Options)
    (hr : s.runner = some p) (hm : s.Model = some m) (ho : s.Options = some o) :
    needLoad s model opts =
      some (decide (m.ModelPath ≠ model.ModelPath) || decide (m.AdapterPaths ≠ model.AdapterPaths)
        || !deepEqualRunner o.Runner opts.Runner) := by
  simp only [needLoad, hr, hm, ho]
  by_cases h1 : m.ModelPath = model.ModelPath <;>
    by_cases h2 : m.AdapterPaths = model.AdapterPaths <;> simp [h1, h2]

theorem loadRelease_empty (w : World) (h : w.loaded.runner = none) : loadRelease w = w := by
  simp [loadRelease, h]

theorem loadRelease_resident (w : World) (p : Ptr) (h : w.loaded.runner = some p) :
    loadRelease w = clearSlot (syncLLM.Close w p) := by
  simp [loadRelease, h]

theorem loadRelease_next (w : World) : (loadRelease w).next = w.next := by
  unfold loadRelease; cases w.loaded.runner <;> rfl

theorem loadRelease_runner (w : World) : (loadRelease w).loaded.runner = none := by
  unfold loadRelease
  cases h : w.loaded.runner with
  | none => exact h
  | some r => rfl

theorem load_ok (env : Env) (w : World) (model : Model) (opts : Options) (h : Handle)
    (hn : env.New (loadRelease w).calls model.ModelPath model.AdapterPaths
      model.ProjectorPaths opts = .ok h) :
    load env w model opts =
      ({ heap := Function.update (loadRelease w).heap w.next { llm := h, closed := false },
         next := w.next + 1,
         calls := (loadRelease w).calls ++ [newCall model opts],
         timers := (loadRelease w).timers,
         loaded := { (loadRelease w).loaded with
           Model := some model, runner := some w.next, Options := some opts } }, none) := by
  simp [load, hn, newSyncLLM, loadRelease_next]

theorem load_error (env : Env) (w : World) (model : Model) (opts : Options) (e : GoError)
    (hn : env.New (loadRelease w).calls model.ModelPath model.AdapterPaths
      model.ProjectorPaths opts = .error e) :
    load env w model opts =
      ({ loadRelease w with calls := (loadRelease w).calls ++ [newCall model opts] },
        some (loadError env model e)) := by
  simp [load, hn]

theorem countNew_append (a b : List Call) : countNew (a ++ b) = countNew a + countNew b := by
  induction a with
  | nil => simp [countNew]
  | cons c cs ih =>
    cases c <;> simp [countNew, ih]
    omega

theorem floatsDeepEqual_self (fs : List GoFloat) :
    floatsDeepEqual fs fs = true ↔ ∀ f ∈ fs, ∀ b, f ≠ GoFloat.nan b := by
  induction fs with
  | nil => simp [floatsDeepEqual]
  | cons f rest ih =>
    cases f <;> simp [floatsDeepEqual, GoFloat.eq, ih]

/-- A `Runner` value is deeply equal to itself exactly when none of its floating-point
fields is a NaN. -/
theorem deepEqualRunner_self (r : Runner) :
    deepEqualRunner r r = true ↔ ∀ f ∈ r.Floats, ∀ b, f ≠ GoFloat.nan b := by
  simp [deepEqualRunner, floatsDeepEqual_self]

/-- With the same primary path and adapters, `Load` skips the reload exactly on options
whose `Runner` is deeply equal to the stored one; the other fields play no part. -/
theorem Load_resident_equal (env : Env) (w : World) (p : Ptr) (A B : Model) (o1 o2 : Options)
    (T : Duration) (now : Time) (hr : w.loaded.runner = some p)
    (hm : w.loaded.Model = some A) (ho : w.loaded.Options = some o1)
    (hp : A.ModelPath = B.ModelPath) (ha : A.AdapterPaths = B.AdapterPaths)
    (he : deepEqualRunner o1.Runner o2.Runner = true) :
    Load env w B o2 T now = some (refreshTimer w T now, none) := by
  simp [Load, needLoad_resident w.loaded p A B o1 o2 hr hm ho, hp, ha, he]

theorem Load_resident_same (env : Env) (w : World) (p : Ptr) (A : Model) (o : Options)
    (T : Duration) (now : Time) (hr : w.loaded.runner = some p)
    (hm : w.loaded.Model = some A) (ho : w.loaded.Options = some o)
    (he : deepEqualRunner o.Runner o.Runner = true) :
    Load env w A o T now = some (refreshTimer w T now, none) :=
  Load_resident_equal env w p A A o o T now hr hm ho rfl rfl he

theorem loadAll_resident (env : Env) (A : Model) (o : Options) (p : Ptr)
    (he : deepEqualRunner o.Runner o.Runner = true) (ts : List (Duration × Time)) :
    ∀ w : World, w.loaded.runner = some p → w.loaded.Model = some A →
      w.loaded.Options = some o →
      ∃ w1, loadAll env A o w ts = some w1 ∧ w1.calls = w.calls ∧ w1.heap = w.heap ∧
        w1.loaded.runner = some p := by
  induction ts with
  | nil => intro w hr _ _; exact ⟨w, rfl, rfl, rfl, hr⟩
  | cons t rest ih =>
    intro w hr hm ho
    obtain ⟨d, now⟩ := t
    obtain ⟨w1, h1, h2, h3, h4⟩ := ih (refreshTimer w d now)
      (by rw [refreshTimer_runner]; exact hr) (by rw [refreshTimer_Model]; exact hm)
      (by rw [refreshTimer_Options]; exact ho)
    refine ⟨w1, ?_, ?_, ?_, h4⟩
    · simp [loadAll, Load_resident_same env w p A o d now hr hm ho he, h1]
    · rw [h2, refreshTimer_calls]
    · rw [h3, refreshTimer_heap]

theorem Load_reload_ok (env : Env) (w : World) (model : Model) (opts : Options)
    (T : Duration) (now : Time) (hn : needLoad w.loaded model opts = some true)
    (hl : (load env w model opts).2 = none) :
    Load env w model opts T now = some (refreshTimer (load env w model opts).1 T now, none) := by
  unfold Load
  rw [hn]
  rcases hload : load env w model opts with ⟨w1, r⟩
  rw [hload] at hl
  simp only at hl
  subst hl
  rfl

theorem Load_reload_error (env : Env) (w : World) (model : Model) (opts : Options)
    (T : Duration) (now : Time) (e : GoError) (hn : needLoad w.loaded model opts = some true)
    (hl : (load env w model opts).2 = some e) :
    Load env w model opts T now = some ((load env w model opts).1, some e) := by
  unfold Load
  rw [hn]
  rcases hload : load env w model opts with ⟨w1, r⟩
  rw [hload] at hl
  simp only at hl
  subst hl
  rfl

theorem loadRelease_calls_resident (w : World) (p : Ptr) (h : w.loaded.runner = some p) :
    (loadRelease w).calls = w.calls ++ [Call.Close (w.heap p).llm] := by
  rw [loadRelease_resident w p h]; rfl

theorem loadRelease_heap_closed (w : World) (p : Ptr) (h : w.loaded.runner = some p) :
    ((loadRelease w).heap p).closed = true := by
  rw [loadRelease_resident w p h]
  simp [clearSlot, syncLLM.Close]

theorem loadRelease_cleared (w : World)
    (hc : w.loaded.runner = none → w.loaded.Model = none ∧ w.loaded.Options = none) :
    (loadRelease w).loaded.Model = none ∧ (loadRelease w).loaded.Options = none := by
  unfold loadRelease
  cases h : w.loaded.runner with
  | none => exact hc h
  | some r => exact ⟨rfl, rfl⟩

theorem load_calls (env : Env) (w : World) (model : Model) (opts : Options) :
    (load env w model opts).1.calls = (loadRelease w).calls ++ [newCall model opts] := by
  cases hn : env.New (loadRelease w).calls model.ModelPath model.AdapterPaths
      model.ProjectorPaths opts with
  | error e => rw [load_error env w model opts e hn]
  | ok h => rw [load_ok env w model opts h hn]

theorem load_heap_closed (env : Env) (w : World) (model : Model) (opts : Options) (p : Ptr)
    (hp : p < w.next) (hc : ((loadRelease w).heap p).closed = true) :
    ((load env w model opts).1.heap p).closed = true := by
  cases hn : env.New (loadRelease w).calls model.ModelPath model.AdapterPaths
      model.ProjectorPaths opts with
  | error e => rw [load_error env w model opts e hn]; exact hc
  | ok h =>
    rw [load_ok env w model opts h hn]
    simp [Function.update, Nat.ne_of_lt hp, hc]

theorem ClosedAt_syncLLM_Close (w : World) (s p : Ptr) (h : ClosedAt w p) :
    ClosedAt (syncLLM.Close w s) p :=
  ⟨h.1, syncLLM_Close_heap_closed w s p h.2⟩

theorem ClosedAt_clearSlot (w : World) (p : Ptr) (h : ClosedAt w p) :
    ClosedAt (clearSlot w) p := h

theorem ClosedAt_loadRelease (w : World) (p : Ptr) (h : ClosedAt w p) :
    ClosedAt (loadRelease w) p := by
  unfold loadRelease
  cases w.loaded.runner with
  | none => exact h
  | some r => exact ClosedAt_clearSlot _ p (ClosedAt_syncLLM_Close w r p h)

theorem ClosedAt_load (env : Env) (w : World) (model : Model) (opts : Options) (p : Ptr)
    (h : ClosedAt w p) : ClosedAt (load env w model opts).1 p := by
  have hrel := ClosedAt_loadRelease w p h
  refine ⟨?_, load_heap_closed env w model opts p h.1 hrel.2⟩
  cases hn : env.New (loadRelease w).calls model.ModelPath model.AdapterPaths
      model.ProjectorPaths opts with
  | error e => rw [load_error env w model opts e hn]; exact hrel.1
  | ok k => rw [load_ok env w model opts k hn]; exact Nat.lt_succ_of_lt h.1

theorem ClosedAt_refreshTimer (w : World) (d : Duration) (now : Time) (p : Ptr)
    (h : ClosedAt w p) : ClosedAt (refreshTimer w d now) p := by
  unfold ClosedAt
  rw [refreshTimer_next, refreshTimer_heap]
  exact h

theorem ClosedAt_Load (env : Env) (w w1 : World) (model : Model) (opts : Options)
    (d : Duration) (now : Time) (r : Option GoError) (p : Ptr) (h : ClosedAt w p)
    (hL : Load env w model opts d now = some (w1, r)) : ClosedAt w1 p := by
  unfold Load at hL
  cases hn : needLoad w.loaded model opts with
  | none => rw [hn] at hL; cases hL
  | some b =>
    rw [hn] at hL
    cases b with
    | false =>
      simp only [Option.some.injEq, Prod.mk.injEq] at hL
      rw [← hL.1]
      exact ClosedAt_refreshTimer w d now p h
    | true =>
      have hl := ClosedAt_load env w model opts p h
      rcases hload : load env w model opts with ⟨w2, r2⟩
      rw [hload] at hL hl
      cases r2 with
      | none =>
        simp only [Option.some.injEq, Prod.mk.injEq] at hL
        rw [← hL.1]
        exact ClosedAt_refreshTimer w2 d now p hl
      | some e =>
        simp only [Option.some.injEq, Prod.mk.injEq] at hL
        rw [← hL.1]
        exact hl

theorem ClosedAt_Close (w : World) (p : Ptr) (h : ClosedAt w p) : ClosedAt (Close w) p := by
  unfold Close State.Close
  cases w.loaded.runner with
  | none => exact h
  | some r => exact ClosedAt_syncLLM_Close w r p h

theorem ClosedAt_timerCallback (w : World) (now : Time) (p : Ptr) (h : ClosedAt w p) :
    ClosedAt (timerCallback w now) p := by
  unfold timerCallback
  split
  · exact h
  · cases w.loaded.runner with
    | none => exact h
    | some r => exact ClosedAt_syncLLM_Close w r p h

theorem ClosedAt_timerFire (w w1 : World) (now : Time) (p : Ptr) (h : ClosedAt w p)
    (hf : timerFire w now = some w1) : ClosedAt w1 p := by
  unfold timerFire at hf
  split at hf
  · split at hf
    · split at hf
      · simp only [Option.some.injEq] at hf
        rw [← hf]
        exact ClosedAt_timerCallback _ now p h
      · cases hf
    · cases hf
  · cases hf

theorem ClosedAt_apply (env : Env) (w w1 : World) (op : Op) (p : Ptr) (h : ClosedAt w p)
    (ha : op.apply env w = some w1) : ClosedAt w1 p := by
  cases op with
  | Load model opts d now =>
    simp only [Op.apply, Option.map_eq_some'] at ha
    obtain ⟨⟨w2, r⟩, hL, rfl⟩ := ha
    exact ClosedAt_Load env w w2 model opts d now r p h hL
  | Close =>
    simp only [Op.apply, Option.some.injEq] at ha
    rw [← ha]; exact ClosedAt_Close w p h
  | ResetExpireTimer d now =>
    simp only [Op.apply, Option.some.injEq] at ha
    rw [← ha]; exact h
  | timerFire now => exact ClosedAt_timerFire w w1 now p h ha
  | timerCallback now =>
    simp only [Op.apply, Option.some.injEq] at ha
    rw [← ha]; exact ClosedAt_timerCallback w now p h
  | Predict s ctx opts =>
    simp only [Op.apply, Option.some.injEq] at ha
    rw [← ha]; unfold syncLLM.Predict; split <;> exact h
  | Embedding s ctx s2 =>
    simp only [Op.apply, Option.some.injEq] at ha
    rw [← ha]; unfold syncLLM.Embedding; split <;> exact h
  | Encode s ctx s2 =>
    simp only [Op.apply, Option.some.injEq] at ha
    rw [← ha]; unfold syncLLM.Encode; split <;> exact h
  | Decode s ctx i =>
    simp only [Op.apply, Option.some.injEq] at ha
    rw [← ha]; unfold syncLLM.Decode; split <;> exact h

theorem ClosedAt_runOps (env : Env) (p : Ptr) (ops : List Op) :
    ∀ w w1 : World, ClosedAt w p → runOps env w ops = some w1 → ClosedAt w1 p := by
  induction ops with
  | nil =>
    intro w w1 h hr
    simp only [runOps, Option.some.injEq] at hr
    rw [← hr]; exact h
  | cons op rest ih =>
    intro w w1 h hr
    unfold runOps at hr
    cases ha : op.apply env w with
    | none => rw [ha] at hr; cases hr
    | some w2 =>
      rw [ha] at hr
      exact ih w2 w1 (ClosedAt_apply env w w2 op p h ha) hr

theorem load_result (env : Env) (w : World) (model : Model) (opts : Options) :
    (∃ h, env.New (loadRelease w).calls model.ModelPath model.AdapterPaths
        model.ProjectorPaths opts = .ok h ∧ (load env w model opts).2 = none) ∨
    (∃ e, env.New (loadRelease w).calls model.ModelPath model.AdapterPaths
        model.ProjectorPaths opts = .error e ∧
      (load env w model opts).2 = some (loadError env model e)) := by
  cases hn : env.New (loadRelease w).calls model.ModelPath model.AdapterPaths
      model.ProjectorPaths opts with
  | error e => exact Or.inr ⟨e, rfl, by rw [load_error env w model opts e hn]⟩
  | ok h => exact Or.inl ⟨h, rfl, by rw [load_ok env w model opts h hn]⟩

/-- The three ways `Load` returns: without a reload, after a reload that succeeded, after a
reload that failed. -/
theorem Load_cases (env : Env) (w w1 : World) (model : Model) (opts : Options)
    (d : Duration) (now : Time) (r : Option GoError)
    (hL : Load env w model opts d now = some (w1, r)) :
    (needLoad w.loaded model opts = some false ∧ w1 = refreshTimer w d now ∧ r = none) ∨
    (needLoad w.loaded model opts = some true ∧
      (∃ h, env.New (loadRelease w).calls model.ModelPath model.AdapterPaths
        model.ProjectorPaths opts = .ok h) ∧
      w1 = refreshTimer (load env w model opts).1 d now ∧ r = none) ∨
    (needLoad w.loaded model opts = some true ∧
      (∃ e, env.New (loadRelease w).calls model.ModelPath model.AdapterPaths
        model.ProjectorPaths opts = .error e ∧ r = some (loadError env model e)) ∧
      w1 = (load env w model opts).1) := by
  cases hn : needLoad w.loaded model opts with
  | none => simp [Load, hn] at hL
  | some b =>
    cases b with
    | false =>
      simp only [Load, hn, Option.some.injEq, Prod.mk.injEq] at hL
      exact Or.inl ⟨rfl, hL.1.symm, hL.2.symm⟩
    | true =>
      rcases load_result env w model opts with ⟨h, hN, hl⟩ | ⟨e, hN, hl⟩
      · rw [Load_reload_ok env w model opts d now hn hl] at hL
        simp only [Option.some.injEq, Prod.mk.injEq] at hL
        exact Or.inr (Or.inl ⟨rfl, ⟨h, hN⟩, hL.1.symm, hL.2.symm⟩)
      · rw [Load_reload_error env w model opts d now _ hn hl] at hL
        simp only [Option.some.injEq, Prod.mk.injEq] at hL
        exact Or.inr (Or.inr ⟨rfl, ⟨e, hN, hL.2.symm⟩, hL.1.symm⟩)

theorem needLoad_false_runner (s : State) (model : Model) (opts : Options)
    (h : needLoad s model opts = some false) : ∃ p, s.runner = some p := by
  cases hr : s.runner with
  | none => rw [needLoad_empty s model opts hr] at h; cases h
  | some p => exact ⟨p, rfl⟩

theorem needLoad_congr (s s1 : State) (model : Model) (opts : Options)
    (hr : s1.runner = s.runner) (hm : s1.Model = s.Model) (ho : s1.Options = s.Options) :
    needLoad s1 model opts = needLoad s model opts := by
  simp [needLoad, hr, hm, ho]

/-- After a `Load` that returned normally the slot holds a handle, and the same `Load`
again needs no reload when the `Runner` options are deeply equal to themselves. -/
theorem Load_ok_resident (env : Env) (w w1 : World) (model : Model) (opts : Options)
    (d : Duration) (now : Time) (hL : Load env w model opts d now = some (w1, none)) :
    (∃ p, w1.loaded.runner = some p) ∧
    (deepEqualRunner opts.Runner opts.Runner = true →
      needLoad w1.loaded model opts = some false) ∧
    w1.loaded.expireAt = now + d := by
  rcases Load_cases env w w1 model opts d now none hL with
    ⟨hn, hw, _⟩ | ⟨_, ⟨h, hN⟩, hw, _⟩ | ⟨_, ⟨e, _, he⟩, _⟩
  · subst hw
    refine ⟨?_, ?_, refreshTimer_expireAt w d now⟩
    · rw [refreshTimer_runner]; exact needLoad_false_runner _ model opts hn
    · intro _
      rw [needLoad_congr w.loaded _ model opts (refreshTimer_runner w d now)
        (refreshTimer_Model w d now) (refreshTimer_Options w d now)]
      exact hn
  · subst hw
    have hl := load_ok env w model opts h hN
    refine ⟨⟨w.next, by rw [refreshTimer_runner, hl]⟩, ?_, refreshTimer_expireAt _ d now⟩
    intro he
    rw [needLoad_resident _ w.next model model opts opts (by rw [refreshTimer_runner, hl])
      (by rw [refreshTimer_Model, hl]) (by rw [refreshTimer_Options, hl])]
    simp [he]
  · cases he

/-! ## The invariant of the package state -/

theorem Coherent_empty (s : State) (hr : s.runner = none) (hm : s.Model = none)
    (ho : s.Options = none) : Coherent s := by
  simp [Coherent, hr, hm, ho]

theorem Coherent_cases (s : State) (h : Coherent s) :
    (s.runner = none ∧ s.Model = none ∧ s.Options = none) ∨
    (∃ p m o, s.runner = some p ∧ s.Model = some m ∧ s.Options = some o) := by
  obtain ⟨runner, expireAt, expireTimer, M, O⟩ := s
  cases runner <;> cases M <;> cases O <;> simp [Coherent] at h ⊢

theorem Inv_init : Inv World.init := by
  refine ⟨by decide, ?_, ?_⟩
  · intro p hp; cases hp
  · intro p hp; exact absurd hp (Nat.not_lt_zero p)

/-- A world with the same wrappers and the same three slot fields has the invariant
too. -/
theorem Inv_congr (w w1 : World) (hh : w1.heap = w.heap) (hn : w1.next = w.next)
    (hr : w1.loaded.runner = w.loaded.runner) (hm : w1.loaded.Model = w.loaded.Model)
    (ho : w1.loaded.Options = w.loaded.Options) (h : Inv w) : Inv w1 := by
  obtain ⟨hc, ha, hb⟩ := h
  refine ⟨?_, ?_, ?_⟩
  · simpa [Coherent, hr, hm, ho] using hc
  · intro p hp; rw [hn]; exact ha p (by rw [← hr]; exact hp)
  · intro p hp; rw [hh, hr]; exact hb p (by rw [← hn]; exact hp)

/-- An empty slot whose created wrappers are all closed has the invariant. -/
theorem Inv_of_all_closed (w : World) (hr : w.loaded.runner = none)
    (hm : w.loaded.Model = none) (ho : w.loaded.Options = none)
    (hall : ∀ p, p < w.next → (w.heap p).closed = true) : Inv w := by
  refine ⟨Coherent_empty _ hr hm ho, ?_, ?_⟩
  · intro p hp; rw [hr] at hp; cases hp
  · intro p hp
    rw [hr, hall p hp]
    simp

theorem all_closed_of_empty (w : World) (h : Inv w) (hr : w.loaded.runner = none) :
    ∀ p, p < w.next → (w.heap p).closed = true := by
  intro p hp
  have := (h.2.2 p hp)
  rw [hr] at this
  cases hc : (w.heap p).closed with
  | true => rfl
  | false => exact absurd (this.mp hc) (by simp)

theorem all_closed_after_close (w : World) (h : Inv w) (r : Ptr)
    (hr : w.loaded.runner = some r) :
    ∀ p, p < w.next → ((syncLLM.Close w r).heap p).closed = true := by
  intro p hp
  by_cases hpr : p = r
  · subst hpr; simp [syncLLM.Close]
  · have := (h.2.2 p hp)
    rw [hr] at this
    cases hc : (w.heap p).closed with
    | true => exact syncLLM_Close_heap_closed w r p hc
    | false =>
      have h2 := this.mp hc
      simp only [Option.some.injEq] at h2
      exact absurd h2.symm hpr

theorem loadRelease_all_closed (w : World) (h : Inv w) :
    ∀ p, p < w.next → ((loadRelease w).heap p).closed = true := by
  cases hr : w.loaded.runner with
  | none => rw [loadRelease_empty w hr]; exact all_closed_of_empty w h hr
  | some r => rw [loadRelease_resident w r hr]; exact all_closed_after_close w h r hr

theorem Coherent_empty_fields (w : World) (h : Inv w) :
    w.loaded.runner = none → w.loaded.Model = none ∧ w.loaded.Options = none := by
  intro hr
  rcases Coherent_cases _ h.1 with ⟨_, hm, ho⟩ | ⟨p, _, _, hp, _, _⟩
  · exact ⟨hm, ho⟩
  · rw [hr] at hp; cases hp

theorem Inv_loadRelease (w : World) (h : Inv w) : Inv (loadRelease w) :=
  Inv_of_all_closed _ (loadRelease_runner w)
    (loadRelease_cleared w (Coherent_empty_fields w h)).1
    (loadRelease_cleared w (Coherent_empty_fields w h)).2
    (by rw [loadRelease_next]; exact loadRelease_all_closed w h)

theorem Inv_load (env : Env) (w : World) (model : Model) (opts : Options) (h : Inv w) :
    Inv (load env w model opts).1 := by
  have hrel := Inv_loadRelease w h
  have hall := loadRelease_all_closed w h
  cases hn : env.New (loadRelease w).calls model.ModelPath model.AdapterPaths
      model.ProjectorPaths opts with
  | error e =>
    rw [load_error env w model opts e hn]
    exact Inv_congr (loadRelease w) _ rfl rfl rfl rfl rfl hrel
  | ok k =>
    rw [load_ok env w model opts k hn]
    refine ⟨by simp [Coherent], ?_, ?_⟩
    · intro p hp
      simp only [Option.some.injEq] at hp
      subst hp
      exact Nat.lt_succ_self _
    · intro p hp
      by_cases hpn : p = w.next
      · subst hpn; simp
      · have hlt : p < w.next := Nat.lt_of_le_of_ne (Nat.le_of_lt_succ hp) hpn
        have hcl := hall p hlt
        simp only [Function.update, hpn, dite_false, hcl, Option.some.injEq]
        constructor
        · intro hx; cases hx
        · intro hx; exact absurd hx.symm hpn

theorem Inv_refreshTimer (w : World) (d : Duration) (now : Time) (h : Inv w) :
    Inv (refreshTimer w d now) :=
  Inv_congr w _ (refreshTimer_heap w d now) (refreshTimer_next w d now)
    (refreshTimer_runner w d now) (refreshTimer_Model w d now) (refreshTimer_Options w d now) h

theorem Inv_Load (env : Env) (w w1 : World) (model : Model) (opts : Options)
    (d : Duration) (now : Time) (r : Option GoError) (h : Inv w)
    (hL : Load env w model opts d now = some (w1, r)) : Inv w1 := by
  rcases Load_cases env w w1 model opts d now r hL with
    ⟨_, hw, _⟩ | ⟨_, _, hw, _⟩ | ⟨_, _, hw⟩
  · subst hw; exact Inv_refreshTimer w d now h
  · subst hw; exact Inv_refreshTimer _ d now (Inv_load env w model opts h)
  · subst hw; exact Inv_load env w model opts h

theorem Inv_Close (w : World) (h : Inv w) : Inv (Close w) := by
  cases hr : w.loaded.runner with
  | none =>
    refine Inv_of_all_closed _ rfl rfl rfl ?_
    simpa [Close, State.Close, clearSlot, hr] using all_closed_of_empty w h hr
  | some r =>
    refine Inv_of_all_closed _ rfl rfl rfl ?_
    have := all_closed_after_close w h r hr
    simpa [Close, State.Close, clearSlot, hr, syncLLM_Close_next] using this

theorem Inv_timerCallback (w : World) (now : Time) (h : Inv w) :
    Inv (timerCallback w now) := by
  by_cases hs : now < w.loaded.expireAt
  · simpa [timerCallback, hs] using h
  · cases hr : w.loaded.runner with
    | none =>
      refine Inv_of_all_closed _ (by simp [timerCallback, hs, clearSlot])
        (by simp [timerCallback, hs, clearSlot]) (by simp [timerCallback, hs, clearSlot]) ?_
      simpa [timerCallback, hs, clearSlot, hr] using all_closed_of_empty w h hr
    | some r =>
      refine Inv_of_all_closed _ (by simp [timerCallback, hs, clearSlot])
        (by simp [timerCallback, hs, clearSlot]) (by simp [timerCallback, hs, clearSlot]) ?_
      have := all_closed_after_close w h r hr
      simpa [timerCallback, hs, clearSlot, hr, syncLLM_Close_next] using this

theorem timerFire_cases (w w1 : World) (now : Time) (hf : timerFire w now = some w1) :
    ∃ t d, w.loaded.expireTimer = some t ∧ t.deadline = some d ∧ d ≤ now ∧
      w1 = timerCallback
        { w with loaded := { w.loaded with expireTimer := some { t with deadline := none } } }
        now := by
  unfold timerFire at hf
  cases ht : w.loaded.expireTimer with
  | none => simp [ht] at hf
  | some t =>
    cases hd : t.deadline with
    | none => simp [ht, hd] at hf
    | some d =>
      by_cases hle : d ≤ now
      · simp only [ht, hd, hle, if_true, Option.some.injEq] at hf
        exact ⟨t, d, rfl, hd, hle, hf.symm⟩
      · simp [ht, hd, hle] at hf

theorem Inv_apply (env : Env) (w w1 : World) (op : Op) (h : Inv w)
    (ha : op.apply env w = some w1) : Inv w1 := by
  cases op with
  | Load model opts d now =>
    simp only [Op.apply, Option.map_eq_some'] at ha
    obtain ⟨⟨w2, r⟩, hL, rfl⟩ := ha
    exact Inv_Load env w w2 model opts d now r h hL
  | Close =>
    simp only [Op.apply, Option.some.injEq] at ha
    rw [← ha]; exact Inv_Close w h
  | ResetExpireTimer d now =>
    simp only [Op.apply, Option.some.injEq] at ha
    rw [← ha]; exact Inv_congr w _ rfl rfl rfl rfl rfl h
  | timerFire now =>
    obtain ⟨t, d, _, _, _, hw⟩ := timerFire_cases w w1 now ha
    rw [hw]
    exact Inv_timerCallback _ now (Inv_congr w _ rfl rfl rfl rfl rfl h)
  | timerCallback now =>
    simp only [Op.apply, Option.some.injEq] at ha
    rw [← ha]; exact Inv_timerCallback w now h
  | Predict s ctx opts =>
    simp only [Op.apply, Option.some.injEq] at ha
    rw [← ha]; unfold syncLLM.Predict
    split
    · exact h
    · exact Inv_congr w _ rfl rfl rfl rfl rfl h
  | Embedding s ctx s2 =>
    simp only [Op.apply, Option.some.injEq] at ha
    rw [← ha]; unfold syncLLM.Embedding
    split
    · exact h
    · exact Inv_congr w _ rfl rfl rfl rfl rfl h
  | Encode s ctx s2 =>
    simp only [Op.apply, Option.some.injEq] at ha
    rw [← ha]; unfold syncLLM.Encode
    split
    · exact h
    · exact Inv_congr w _ rfl rfl rfl rfl rfl h
  | Decode s ctx i =>
    simp only [Op.apply, Option.some.injEq] at ha
    rw [← ha]; unfold syncLLM.Decode
    split
    · exact h
    · exact Inv_congr w _ rfl rfl rfl rfl rfl h

theorem Inv_runOps (env : Env) (ops : List Op) :
    ∀ w w1 : World, Inv w → runOps env w ops = some w1 → Inv w1 := by
  induction ops with
  | nil =>
    intro w w1 h hr
    simp only [runOps, Option.some.injEq] at hr
    rw [← hr]; exact h
  | cons op rest ih =>
    intro w w1 h hr
    unfold runOps at hr
    cases ha : op.apply env w with
    | none => rw [ha] at hr; cases hr
    | some w2 =>
      rw [ha] at hr
      exact ih w2 w1 (Inv_apply env w w2 op h ha) hr

theorem needLoad_of_Coherent (s : State) (model : Model) (opts : Options) (h : Coherent s) :
    ∃ b, needLoad s model opts = some b := by
  rcases Coherent_cases s h with ⟨hr, _, _⟩ | ⟨p, m, o, hr, hm, ho⟩
  · exact ⟨true, needLoad_empty s model opts hr⟩
  · exact ⟨_, needLoad_resident s p m model o opts hr hm ho⟩

/-! ## Sections of `Load` and mutex calls -/

/-- A `Load` call whose sections run one after the other, with nothing in between, is
`Load`. -/
theorem Load_as_sections (env : Env) (w : World) (m : Model) (o : Options) (d : Duration)
    (now : Time) :
    Load env w m o d now =
      match (LoadCall.new m o d now).step env w with
      | none => none
      | some (w1, c1) =>
        match c1.step env w1 with
        | none => none
        | some (w2, c2) =>
          match c2.phase with
          | .returned err => some (w2, err)
          | _ => (c2.step env w2).map (fun r => (r.1, none)) := by
  cases hn : needLoad w.loaded m o with
  | none => simp [Load, LoadCall.step, LoadCall.new, hn]
  | some b =>
    cases b with
    | false => simp [Load, LoadCall.step, LoadCall.new, hn]
    | true =>
      rcases hl : load env w m o with ⟨w1, r⟩
      cases r with
      | none => simp [Load, LoadCall.step, LoadCall.new, hn, hl]
      | some e => simp [Load, LoadCall.step, LoadCall.new, hn, hl]

theorem runnerCloseLocks_cases (w : World) :
    runnerCloseLocks w = [] ∨ runnerCloseLocks w = syncLLM.CloseLocks := by
  unfold runnerCloseLocks
  cases w.loaded.runner with
  | none => exact Or.inl rfl
  | some r => exact Or.inr rfl

theorem loadLocks_order (w : World) :
    (heldStates [] (loadLocks w)).all muFirst = true ∧ noMuUnderTmu [] (loadLocks w) = true := by
  unfold loadLocks
  rcases runnerCloseLocks_cases w with h | h <;> rw [h] <;> decide

theorem LoadLocks_order (env : Env) (w : World) (model : Model) (opts : Options) :
    (heldStates [] (LoadLocks env w model opts)).all muFirst = true ∧
    noMuUnderTmu [] (LoadLocks env w model opts) = true := by
  unfold LoadLocks
  cases needLoad w.loaded model opts with
  | none => exact ⟨rfl, rfl⟩
  | some b =>
    cases b with
    | false => exact ⟨rfl, rfl⟩
    | true =>
      simp only [loadLocks]
      rcases runnerCloseLocks_cases w with h | h <;> rw [h] <;>
        cases (load env w model opts).2 <;> exact ⟨rfl, rfl⟩

theorem State_CloseLocks_order (w : World) :
    (heldStates [] (State.CloseLocks w)).all muFirst = true ∧
    noMuUnderTmu [] (State.CloseLocks w) = true := by
  unfold State.CloseLocks
  rcases runnerCloseLocks_cases w with h | h <;> rw [h] <;> decide

theorem timerCallbackLocks_order (w : World) (now : Time) :
    (heldStates [] (timerCallbackLocks w now)).all muFirst = true ∧
    noMuUnderTmu [] (timerCallbackLocks w now) = true := by
  unfold timerCallbackLocks
  by_cases hs : now < w.loaded.expireAt
  · simp only [hs, if_true]; decide
  · simp only [hs, if_false]
    rcases runnerCloseLocks_cases w with h | h <;> rw [h] <;> decide

theorem LoadLocks_head (env : Env) (w : World) (model : Model) (opts : Options) :
    ∃ rest, LoadLocks env w model opts = LockEv.RLock .mu :: rest := by
  unfold LoadLocks
  cases needLoad w.loaded model opts with
  | none => exact ⟨_, rfl⟩
  | some b => cases b <;> exact ⟨_, rfl⟩

theorem lock_order_checks_reject :
    muFirst [.tmu, .mu] = false ∧ noMuUnderTmu [] [.Lock .tmu, .Lock .mu, .Unlock .mu,
      .Unlock .tmu] = false ∧ noMuUnderTmu [] [.Lock .tmu, .RLock .mu] = false := by
  decide

/-! ## The timer of the slot -/

theorem refreshTimer_expireTimer (w : World) (d : Duration) (now : Time) :
    (refreshTimer w d now).loaded.expireTimer =
      some { id := (match w.loaded.expireTimer with
                    | some t => t.id
                    | none => w.timers),
             deadline := some (timerWhen now d) } := by
  cases h : w.loaded.expireTimer <;> simp [refreshTimer, h, Timer.Reset]

theorem refreshTimer_timers (w : World) (d : Duration) (now : Time) :
    (refreshTimer w d now).timers =
      (match w.loaded.expireTimer with
        | some _ => w.timers
        | none => w.timers + 1) := by
  cases h : w.loaded.expireTimer <;> simp [refreshTimer, h]

theorem loadRelease_timer (w : World) :
    (loadRelease w).loaded.expireTimer = w.loaded.expireTimer ∧
    (loadRelease w).timers = w.timers := by
  unfold loadRelease
  cases w.loaded.runner <;> exact ⟨rfl, rfl⟩

theorem load_timer (env : Env) (w : World) (model : Model) (opts : Options) :
    (load env w model opts).1.loaded.expireTimer = w.loaded.expireTimer ∧
    (load env w model opts).1.timers = w.timers := by
  cases hn : env.New (loadRelease w).calls model.ModelPath model.AdapterPaths
      model.ProjectorPaths opts with
  | error e => rw [load_error env w model opts e hn]; exact loadRelease_timer w
  | ok h => rw [load_ok env w model opts h hn]; exact loadRelease_timer w

theorem Close_timer (w : World) :
    (Close w).loaded.expireTimer = w.loaded.expireTimer.map Timer.Stop ∧
    (Close w).timers = w.timers := by
  unfold Close State.Close
  cases w.loaded.runner <;> exact ⟨rfl, rfl⟩

theorem timerCallback_timer (w : World) (now : Time) :
    (timerCallback w now).loaded.expireTimer = w.loaded.expireTimer ∧
    (timerCallback w now).timers = w.timers := by
  unfold timerCallback
  split
  · exact ⟨rfl, rfl⟩
  · cases w.loaded.runner <;> exact ⟨rfl, rfl⟩

theorem timerId_eq (w w1 : World) (h : w1.loaded.expireTimer = w.loaded.expireTimer) :
    timerId w1 = timerId w := by
  simp [timerId, h]

/-- What a successful `Load` does to the timer: it creates it, armed, when there is
none, and otherwise re-arms the one there is. -/
theorem Load_ok_timer (env : Env) (w w1 : World) (model : Model) (opts : Options)
    (d : Duration) (now : Time) (hL : Load env w model opts d now = some (w1, none)) :
    w1.loaded.expireTimer =
      some { id := (match w.loaded.expireTimer with
                    | some t => t.id
                    | none => w.timers),
             deadline := some (timerWhen now d) } ∧
    w1.timers = (match w.loaded.expireTimer with
      | some _ => w.timers
      | none => w.timers + 1) := by
  rcases Load_cases env w w1 model opts d now none hL with
    ⟨_, hw, _⟩ | ⟨_, _, hw, _⟩ | ⟨_, ⟨e, _, he⟩, _⟩
  · subst hw; exact ⟨refreshTimer_expireTimer w d now, refreshTimer_timers w d now⟩
  · subst hw
    rw [refreshTimer_expireTimer, refreshTimer_timers, (load_timer env w model opts).1,
      (load_timer env w model opts).2]
    exact ⟨rfl, rfl⟩
  · cases he

theorem Load_error_timer (env : Env) (w w1 : World) (model : Model) (opts : Options)
    (d : Duration) (now : Time) (e : GoError)
    (hL : Load env w model opts d now = some (w1, some e)) :
    w1.loaded.expireTimer = w.loaded.expireTimer ∧ w1.timers = w.timers := by
  rcases Load_cases env w w1 model opts d now (some e) hL with
    ⟨_, _, he⟩ | ⟨_, _, _, he⟩ | ⟨_, _, hw⟩
  · cases he
  · cases he
  · subst hw; exact load_timer env w model opts

/-- One operation keeps the timer of the slot and the number of timers created, or it is
a `Load` that returns normally on a slot without a timer and creates the timer. -/
theorem timer_apply (env : Env) (w w1 : World) (op : Op) (ha : op.apply env w = some w1) :
    (timerId w1 = timerId w ∧ w1.timers = w.timers) ∨
    (∃ m o d now, op = .Load m o d now ∧ Load env w m o d now = some (w1, none) ∧
      timerId w = none ∧ timerId w1 = some w.timers ∧ w1.timers = w.timers + 1) := by
  cases op with
  | Load model opts d now =>
    simp only [Op.apply, Option.map_eq_some'] at ha
    obtain ⟨⟨w2, r⟩, hL, rfl⟩ := ha
    cases r with
    | some e =>
      have := Load_error_timer env w w2 model opts d now e hL
      exact Or.inl ⟨timerId_eq w w2 this.1, this.2⟩
    | none =>
      have := Load_ok_timer env w w2 model opts d now hL
      cases ht : w.loaded.expireTimer with
      | none =>
        rw [ht] at this
        exact Or.inr ⟨model, opts, d, now, rfl, hL, by simp [timerId, ht],
          by simp [timerId, this.1], this.2⟩
      | some t =>
        rw [ht] at this
        exact Or.inl ⟨by simp [timerId, this.1, ht], this.2⟩
  | Close =>
    simp only [Op.apply, Option.some.injEq] at ha
    subst ha
    refine Or.inl ⟨?_, (Close_timer w).2⟩
    simp only [timerId, (Close_timer w).1]
    cases w.loaded.expireTimer <;> rfl
  | ResetExpireTimer d now =>
    simp only [Op.apply, Option.some.injEq] at ha
    subst ha
    refine Or.inl ⟨?_, rfl⟩
    simp only [timerId, State.ResetExpireTimer]
    cases w.loaded.expireTimer <;> rfl
  | timerFire now =>
    obtain ⟨t, dl, ht, _, _, hw⟩ := timerFire_cases w w1 now ha
    subst hw
    refine Or.inl ⟨?_, (timerCallback_timer _ now).2⟩
    rw [timerId, (timerCallback_timer _ now).1]
    simp [timerId, ht]
  | timerCallback now =>
    simp only [Op.apply, Option.some.injEq] at ha
    subst ha
    exact Or.inl ⟨timerId_eq _ _ (timerCallback_timer w now).1, (timerCallback_timer w now).2⟩
  | Predict s ctx opts =>
    simp only [Op.apply, Option.some.injEq] at ha
    subst ha
    unfold syncLLM.Predict
    split <;> exact Or.inl ⟨rfl, rfl⟩
  | Embedding s ctx s2 =>
    simp only [Op.apply, Option.some.injEq] at ha
    subst ha
    unfold syncLLM.Embedding
    split <;> exact Or.inl ⟨rfl, rfl⟩
  | Encode s ctx s2 =>
    simp only [Op.apply, Option.some.injEq] at ha
    subst ha
    unfold syncLLM.Encode
    split <;> exact Or.inl ⟨rfl, rfl⟩
  | Decode s ctx i =>
    simp only [Op.apply, Option.some.injEq] at ha
    subst ha
    unfold syncLLM.Decode
    split <;> exact Or.inl ⟨rfl, rfl⟩

theorem timer_runOps (env : Env) (ops : List Op) :
    ∀ w w1 : World,
      ((timerId w = none ∧ w.timers = 0) ∨ (timerId w = some 0 ∧ w.timers = 1)) →
      runOps env w ops = some w1 →
      (timerId w1 = none ∧ w1.timers = 0) ∨ (timerId w1 = some 0 ∧ w1.timers = 1) := by
  induction ops with
  | nil =>
    intro w w1 h hr
    simp only [runOps, Option.some.injEq] at hr
    rw [← hr]; exact h
  | cons op rest ih =>
    intro w w1 h hr
    unfold runOps at hr
    cases ha : op.apply env w with
    | none => rw [ha] at hr; cases hr
    | some w2 =>
      rw [ha] at hr
      refine ih w2 w1 ?_ hr
      rcases timer_apply env w w2 op ha with ⟨h1, h2⟩ | ⟨_, _, _, _, _, _, h1, h2, h3⟩
      · rw [h1, h2]; exact h
      · rcases h with ⟨_, h0⟩ | ⟨h4, _⟩
        · exact Or.inr ⟨by rw [h2, h0], by rw [h3, h0]⟩
        · rw [h1] at h4; cases h4

theorem Load_total (env : Env) (w : World) (model : Model) (opts : Options) (d : Duration)
    (now : Time) (b : Bool) (hn : needLoad w.loaded model opts = some b) :
    ∃ w1 r, Load env w model opts d now = some (w1, r) := by
  cases b with
  | false => exact ⟨refreshTimer w d now, none, by simp [Load, hn]⟩
  | true =>
    cases hl : (load env w model opts).2 with
    | none => exact ⟨_, _, Load_reload_ok env w model opts d now hn hl⟩
    | some e => exact ⟨_, _, Load_reload_error env w model opts d now e hn hl⟩

/-! ## The wrapper -/

/-- C1: on a wrapper whose `closed` flag is set, `Predict`, `Embedding`, `Encode` and
`Decode` return `ErrLLMClosed` with a zero value and leave the world, hence the log of
calls to the wrapped value, unchanged; on a wrapper whose flag is not set, each returns
what the wrapped value answers to the same arguments, and the call is logged. -/
theorem C1_read_operations_guarded (env : Env) (w : World) (s : Ptr) (ctx : Context)
    (popts : PredictOpts) (s2 : String) (i : Slice Int) :
    ((w.heap s).closed = true →
      syncLLM.Predict env w s ctx popts = (w, ([], some ErrLLMClosed)) ∧
      syncLLM.Embedding env w s ctx s2 = (w, (none, some ErrLLMClosed)) ∧
      syncLLM.Encode env w s ctx s2 = (w, (none, some ErrLLMClosed)) ∧
      syncLLM.Decode env w s ctx i = (w, ("", some ErrLLMClosed))) ∧
    ((w.heap s).closed = false →
      syncLLM.Predict env w s ctx popts =
        ({ w with calls := w.calls ++ [Call.Predict (w.heap s).llm ctx popts] },
          env.Predict w.calls (w.heap s).llm ctx popts) ∧
      syncLLM.Embedding env w s ctx s2 =
        ({ w with calls := w.calls ++ [Call.Embedding (w.heap s).llm ctx s2] },
          env.Embedding w.calls (w.heap s).llm ctx s2) ∧
      syncLLM.Encode env w s ctx s2 =
        ({ w with calls := w.calls ++ [Call.Encode (w.heap s).llm ctx s2] },
          env.Encode w.calls (w.heap s).llm ctx s2) ∧
      syncLLM.Decode env w s ctx i =
        ({ w with calls := w.calls ++ [Call.Decode (w.heap s).llm ctx i] },
          env.Decode w.calls (w.heap s).llm ctx i)) := by
  constructor
  · intro h
    exact closed_reads_fail env w s h ctx popts s2 i
  · intro h
    simp [syncLLM.Predict, syncLLM.Embedding, syncLLM.Encode, syncLLM.Decode, h]

/-- C1, at a closed and at an open wrapper: the wrapper at address `0` of `oneWrapper`
after and before a `Close`. -/
theorem C1_read_operations_guarded_witness :
    (((syncLLM.Close oneWrapper 0).heap 0).closed = true ∧
      syncLLM.Predict sampleEnv (syncLLM.Close oneWrapper 0) 0 1 2 =
        (syncLLM.Close oneWrapper 0, ([], some ErrLLMClosed))) ∧
    ((oneWrapper.heap 0).closed = false ∧
      syncLLM.Decode sampleEnv oneWrapper 0 1 (some [3]) =
        ({ oneWrapper with
            calls := oneWrapper.calls ++ [Call.Decode (oneWrapper.heap 0).llm 1 (some [3])] },
          sampleEnv.Decode oneWrapper.calls (oneWrapper.heap 0).llm 1 (some [3]))) :=
  ⟨⟨by decide,
    ((C1_read_operations_guarded sampleEnv (syncLLM.Close oneWrapper 0) 0 1 2 "" none).1
      (by decide)).1⟩,
   ⟨by decide,
    ((C1_read_operations_guarded sampleEnv oneWrapper 0 1 2 "" (some [3])).2
      (by decide)).2.2.2⟩⟩

/-- C2, as the claim states it, fails: two `Close` calls on the same wrapper reach the
wrapped value twice. -/
theorem C2_second_close_reaches_resource :
    countClose 7 oneWrapper.calls = 0 ∧
    countClose 7 (closeTimes oneWrapper 0 1).calls = 1 ∧
    countClose 7 (closeTimes oneWrapper 0 2).calls = 2 := by
  decide

/-- C2, amended: every `Close` on a wrapper calls `Close` on the wrapped value once, so
`n` calls log exactly `n` of them; the first sets the `closed` flag and it stays set. -/
theorem C2_close_forwards_every_time (w : World) (s : Ptr) (n : Nat) :
    (closeTimes w s n).calls = w.calls ++ List.replicate n (Call.Close (w.heap s).llm) ∧
    (0 < n → ((closeTimes w s n).heap s).closed = true) := by
  induction n with
  | zero => simp [closeTimes]
  | succ n ih =>
    refine ⟨?_, fun _ => ?_⟩
    · simp only [closeTimes, syncLLM_Close_calls, ih.1, closeTimes_llm, List.append_assoc,
        List.replicate_succ']
    · simp [closeTimes, syncLLM.Close]

/-- C2 amended, at three calls on the wrapper of `oneWrapper`. -/
theorem C2_close_forwards_every_time_witness :
    (0 : Nat) < 3 ∧ ((closeTimes oneWrapper 0 3).heap 0).closed = true :=
  ⟨by decide, (C2_close_forwards_every_time oneWrapper 0 3).2 (by decide)⟩

/-! ## The registry -/

/-- C3, as the claim states it, fails: `optsNaN` has a NaN in a floating-point field of
`Runner`, so its `Runner` is not deeply equal to itself; after `Load(modelA, optsNaN, 5)`
the resource is resident with exactly this descriptor and these options, and the
identical `Load` again releases the handle and calls the constructor a second time,
leaving another handle in the slot. -/
theorem C3_identical_load_with_nan_reloads :
    deepEqualRunner optsNaN.Runner optsNaN.Runner = false ∧
    ((runOps sampleEnv World.init [.Load modelA optsNaN 5 100]).map
        (fun w => (w.loaded.runner, w.loaded.Model, w.loaded.Options, w.calls))
      = some (some 0, some modelA, some optsNaN, [newCall modelA optsNaN])) ∧
    ((runOps sampleEnv World.init [.Load modelA optsNaN 5 100, .Load modelA optsNaN 5 101]).map
        (fun w => (w.loaded.runner, w.calls))
      = some (some 1, [newCall modelA optsNaN, Call.Close 1, newCall modelA optsNaN])) ∧
    ((loadAll sampleEnv modelA optsNaN World.init [(5, 100), (5, 101)]).map
        (fun w => countNew w.calls) = some 2) :=
  ⟨rfl, rfl, rfl, rfl⟩

/-- C3, amended: for options `o` whose `Runner` is deeply equal to itself (no NaN in a
floating-point field): when a resource loaded for `A` and `o` is resident, `Load` with the
same `A` and `o` returns normally without a call leaving the package (no constructor
call, no release), leaves the memory of wrappers as it is, and `Runner()` still returns
the same handle; and from an empty slot, any run of one or more successful `Load` calls
with the same `A` and `o` calls the constructor exactly once. -/
theorem C3_identical_load_reuses (env : Env) (w : World) (A : Model) (o : Options)
    (he : deepEqualRunner o.Runner o.Runner = true) :
    (∀ f ∈ o.Runner.Floats, ∀ b, f ≠ GoFloat.nan b) ∧
    (∀ (p : Ptr) (T : Duration) (now : Time),
      w.loaded.runner = some p → w.loaded.Model = some A → w.loaded.Options = some o →
      ∃ w1, Load env w A o T now = some (w1, none) ∧ w1.calls = w.calls ∧
        w1.heap = w.heap ∧ State.Runner w1 = some p) ∧
    (∀ (h : Handle) (ts : List (Duration × Time)),
      w.loaded.runner = none →
      env.New w.calls A.ModelPath A.AdapterPaths A.ProjectorPaths o = .ok h →
      ts ≠ [] →
      ∃ w1, loadAll env A o w ts = some w1 ∧ countNew w1.calls = countNew w.calls + 1 ∧
        State.Runner w1 = some w.next) := by
  refine ⟨(deepEqualRunner_self o.Runner).mp he, ?_, ?_⟩
  · intro p T now hr hm ho
    exact ⟨refreshTimer w T now, Load_resident_same env w p A o T now hr hm ho he,
      refreshTimer_calls w T now, refreshTimer_heap w T now,
      by simp [State.Runner, refreshTimer_runner, hr]⟩
  · intro h ts hr hn hts
    cases ts with
    | nil => exact absurd rfl hts
    | cons t rest =>
      obtain ⟨d, now⟩ := t
      have hrel : loadRelease w = w := loadRelease_empty w hr
      have hl := load_ok env w A o h (by rw [hrel]; exact hn)
      rw [hrel] at hl
      obtain ⟨w1, h1, h2, _, h4⟩ := loadAll_resident env A o w.next he rest
        (refreshTimer (load env w A o).1 d now)
        (by rw [refreshTimer_runner, hl]) (by rw [refreshTimer_Model, hl])
        (by rw [refreshTimer_Options, hl])
      refine ⟨w1, ?_, ?_, h4⟩
      · have hL : Load env w A o d now = some (refreshTimer (load env w A o).1 d now, none) := by
          simp [Load, needLoad_empty w.loaded A o hr, hl]
        simp [loadAll, hL, h1]
      · rw [h2, refreshTimer_calls, hl]
        simp [countNew_append, countNew, newCall]

/-- C3 amended, at `afterLoadA` (resident: `modelA` with `opts1`) and at the fresh process
with three `Load` calls in a row. -/
theorem C3_identical_load_reuses_witness :
    deepEqualRunner opts1.Runner opts1.Runner = true ∧
    (afterLoadA.loaded.runner = some 0 ∧ afterLoadA.loaded.Model = some modelA ∧
      afterLoadA.loaded.Options = some opts1 ∧
      ∃ w1, Load sampleEnv afterLoadA modelA opts1 5 101 = some (w1, none) ∧
        w1.calls = afterLoadA.calls ∧ w1.heap = afterLoadA.heap ∧
        State.Runner w1 = some 0) ∧
    (World.init.loaded.runner = none ∧
      sampleEnv.New World.init.calls modelA.ModelPath modelA.AdapterPaths
        modelA.ProjectorPaths opts1 = .ok 1 ∧
      [((5 : Duration), (100 : Time)), (5, 101), (5, 102)] ≠ [] ∧
      ∃ w1, loadAll sampleEnv modelA opts1 World.init [(5, 100), (5, 101), (5, 102)] = some w1 ∧
        countNew w1.calls = countNew World.init.calls + 1 ∧
        State.Runner w1 = some World.init.next) :=
  ⟨by decide,
   ⟨by decide, by decide, by decide,
    (C3_identical_load_reuses sampleEnv afterLoadA modelA opts1 (by decide)).2.1 0 5 101
      (by decide) (by decide) (by decide)⟩,
   ⟨by decide, rfl, by decide,
    (C3_identical_load_reuses sampleEnv World.init modelA opts1 (by decide)).2.2 1
      [(5, 100), (5, 101), (5, 102)] (by decide) rfl (by decide)⟩⟩

/-- C4, at the failing input: with `modelA` and `opts1` resident, `Load` of `modelA2`,
which differs from `modelA` in `ProjectorPaths` only, returns normally without any call
leaving the package (no release, no constructor call); the slot keeps the open wrapper
at address `0` and the descriptor `modelA`. -/
theorem C4_projector_change_not_reloaded :
    modelA2.ProjectorPaths ≠ modelA.ProjectorPaths ∧
    afterLoadA.loaded.runner = some 0 ∧
    afterLoadA.loaded.Model = some modelA ∧
    afterLoadA.loaded.Options = some opts1 ∧
    needLoad afterLoadA.loaded modelA2 opts1 = some false ∧
    (Load sampleEnv afterLoadA modelA2 opts1 5 101).map
        (fun r => (r.2, r.1.calls, r.1.loaded.runner, r.1.loaded.Model, (r.1.heap 0).closed))
      = some (none, afterLoadA.calls, some 0, some modelA, false) := by
  decide

/-- C5, as the claim states it, fails: with `modelA` and `opts1` resident, `Load` with
`opts1b`, which differs from `opts1` outside `Runner` only, makes no call outside the
package and leaves the stored options at `opts1`; and with different `Runner` options
but a constructor that fails, the slot is left without stored options. -/
theorem C5_other_option_change_not_reloaded :
    opts1b ≠ opts1 ∧
    afterLoadA.loaded.runner = some 0 ∧
    afterLoadA.loaded.Model = some modelA ∧
    afterLoadA.loaded.Options = some opts1 ∧
    ((Load sampleEnv afterLoadA modelA opts1b 5 101).map
        (fun r => (r.2, r.1.calls, r.1.loaded.runner, r.1.loaded.Options))
      = some (none, afterLoadA.calls, some 0, some opts1)) ∧
    opts2 ≠ opts1 ∧
    ((Load flakyEnv afterLoadA modelA opts2 5 101).map (fun r => r.1.loaded.Options)
      = some none) := by
  decide

/-- C5, amended: with a resource resident for `A` and `o1`, `Load` of `A` with options
`o2` whose `Runner` component is not deeply equal to that of `o1` reloads: it returns,
having logged the `Close` of the old handle and then the constructor call with `o2`, the
old wrapper is closed, and when the constructor succeeds the slot stores `o2` with `A` and
a fresh open wrapper around the new handle; with options `o2` whose `Runner` component is
deeply equal to that of `o1`, whatever their other fields, `Load` does not reload: no call
leaves the package, the handle stays and the stored options stay `o1`. -/
theorem C5_runner_option_change_reloads (env : Env) (w : World) (A : Model)
    (o1 o2 : Options) (p : Ptr) (T : Duration) (now : Time)
    (hr : w.loaded.runner = some p) (hm : w.loaded.Model = some A)
    (ho : w.loaded.Options = some o1) :
    (deepEqualRunner o1.Runner o2.Runner = false →
      ∃ w1 r, Load env w A o2 T now = some (w1, r) ∧
        w1.calls = w.calls ++ [Call.Close (w.heap p).llm, newCall A o2] ∧
        (p < w.next → (w1.heap p).closed = true) ∧
        (∀ h, env.New (w.calls ++ [Call.Close (w.heap p).llm]) A.ModelPath A.AdapterPaths
            A.ProjectorPaths o2 = .ok h →
          r = none ∧ w1.loaded.Options = some o2 ∧ w1.loaded.Model = some A ∧
          w1.loaded.runner = some w.next ∧
          w1.heap w.next = { llm := h, closed := false })) ∧
    (deepEqualRunner o1.Runner o2.Runner = true →
      ∃ w1, Load env w A o2 T now = some (w1, none) ∧ w1.calls = w.calls ∧
        w1.heap = w.heap ∧ w1.loaded.runner = some p ∧ w1.loaded.Model = some A ∧
        w1.loaded.Options = some o1) := by
  constructor
  · intro hne
    have hn : needLoad w.loaded A o2 = some true := by
      rw [needLoad_resident w.loaded p A A o1 o2 hr hm ho]
      simp [hne]
    have hcalls := loadRelease_calls_resident w p hr
    cases hN : env.New (loadRelease w).calls A.ModelPath A.AdapterPaths A.ProjectorPaths o2 with
    | error e =>
      have hl := load_error env w A o2 e hN
      refine ⟨(load env w A o2).1, some (loadError env A e),
        Load_reload_error env w A o2 T now _ hn (by rw [hl]), ?_, ?_, ?_⟩
      · rw [load_calls, hcalls]; simp
      · intro hp
        exact load_heap_closed env w A o2 p hp (loadRelease_heap_closed w p hr)
      · intro h hok
        rw [hcalls] at hN
        rw [hN] at hok
        cases hok
    | ok h =>
      have hl := load_ok env w A o2 h hN
      refine ⟨refreshTimer (load env w A o2).1 T now, none,
        Load_reload_ok env w A o2 T now hn (by rw [hl]), ?_, ?_, ?_⟩
      · rw [refreshTimer_calls, load_calls, hcalls]; simp
      · intro hp
        rw [refreshTimer_heap]
        exact load_heap_closed env w A o2 p hp (loadRelease_heap_closed w p hr)
      · intro h2 hok
        rw [hcalls] at hN
        rw [hN] at hok
        cases hok
        rw [refreshTimer_Options, refreshTimer_Model, refreshTimer_runner, refreshTimer_heap, hl]
        simp
  · intro he
    exact ⟨refreshTimer w T now,
      Load_resident_equal env w p A A o1 o2 T now hr hm ho rfl rfl he,
      refreshTimer_calls w T now, refreshTimer_heap w T now,
      by rw [refreshTimer_runner, hr], by rw [refreshTimer_Model, hm],
      by rw [refreshTimer_Options, ho]⟩

/-- C5 amended, at `afterLoadA` with `opts2` (another `Runner`) and with `opts1b` (the
same `Runner`, another field changed). -/
theorem C5_runner_option_change_reloads_witness :
    afterLoadA.loaded.runner = some 0 ∧ afterLoadA.loaded.Model = some modelA ∧
    afterLoadA.loaded.Options = some opts1 ∧
    (deepEqualRunner opts1.Runner opts2.Runner = false ∧
      ∃ w1 r, Load sampleEnv afterLoadA modelA opts2 5 101 = some (w1, r) ∧
        w1.calls = afterLoadA.calls ++ [Call.Close (afterLoadA.heap 0).llm, newCall modelA opts2] ∧
        ((0 : Nat) < afterLoadA.next → (w1.heap 0).closed = true) ∧
        (∀ h, sampleEnv.New (afterLoadA.calls ++ [Call.Close (afterLoadA.heap 0).llm])
            modelA.ModelPath modelA.AdapterPaths modelA.ProjectorPaths opts2 = .ok h →
          r = none ∧ w1.loaded.Options = some opts2 ∧ w1.loaded.Model = some modelA ∧
          w1.loaded.runner = some afterLoadA.next ∧
          w1.heap afterLoadA.next = { llm := h, closed := false })) ∧
    (deepEqualRunner opts1.Runner opts1b.Runner = true ∧
      ∃ w1, Load sampleEnv afterLoadA modelA opts1b 5 101 = some (w1, none) ∧
        w1.calls = afterLoadA.calls ∧ w1.heap = afterLoadA.heap ∧
        w1.loaded.runner = some 0 ∧ w1.loaded.Model = some modelA ∧
        w1.loaded.Options = some opts1) :=
  ⟨by decide, by decide, by decide,
    ⟨by decide,
      (C5_runner_option_change_reloads sampleEnv afterLoadA modelA opts1 opts2 0 5 101
        (by decide) (by decide) (by decide)).1 (by decide)⟩,
    ⟨by decide,
      (C5_runner_option_change_reloads sampleEnv afterLoadA modelA opts1 opts1b 0 5 101
        (by decide) (by decide) (by decide)).2 (by decide)⟩⟩

/-- C6: when `load` runs with a wrapper at `p` resident, the log gains the `Close` of the
old handle and, after it, the constructor call; in every world `load` passes through,
from its first statement on, the old wrapper is closed and its release is in the log, so
the slot never holds the new wrapper while the old one is unreleased; the last of these
worlds is the one `load` returns, and there every read operation on `p` returns
`ErrLLMClosed`; a `Load` that needs a reload ends with the same log and memory. -/
theorem C6_release_precedes_construction (env : Env) (w : World) (B : Model) (o : Options)
    (p : Ptr) (hr : w.loaded.runner = some p) (hp : p < w.next) :
    (load env w B o).1.calls = w.calls ++ [Call.Close (w.heap p).llm, newCall B o] ∧
    (loadStates env w B o).getLast? = some (load env w B o).1 ∧
    (∀ s ∈ loadStates env w B o,
      (s.heap p).closed = true ∧ Call.Close (w.heap p).llm ∈ s.calls ∧
      (s.loaded.runner = some p ∨ s.loaded.runner = none ∨ s.loaded.runner = some w.next)) ∧
    (∀ (ctx : Context) (popts : PredictOpts) (s2 : String) (i : Slice Int),
      syncLLM.Predict env (load env w B o).1 p ctx popts =
        ((load env w B o).1, ([], some ErrLLMClosed)) ∧
      syncLLM.Embedding env (load env w B o).1 p ctx s2 =
        ((load env w B o).1, (none, some ErrLLMClosed)) ∧
      syncLLM.Encode env (load env w B o).1 p ctx s2 =
        ((load env w B o).1, (none, some ErrLLMClosed)) ∧
      syncLLM.Decode env (load env w B o).1 p ctx i =
        ((load env w B o).1, ("", some ErrLLMClosed))) ∧
    (needLoad w.loaded B o = some true → ∀ (T : Duration) (now : Time),
      ∃ w1 r, Load env w B o T now = some (w1, r) ∧
        w1.calls = (load env w B o).1.calls ∧ w1.heap = (load env w B o).1.heap) := by
  have hcl := load_heap_closed env w B o p hp (loadRelease_heap_closed w p hr)
  have hne : p ≠ w.next := Nat.ne_of_lt hp
  refine ⟨?_, ?_, ?_, fun ctx popts s2 i => closed_reads_fail env _ p hcl ctx popts s2 i, ?_⟩
  · rw [load_calls, loadRelease_calls_resident w p hr]; simp
  · cases hN : env.New (loadRelease w).calls B.ModelPath B.AdapterPaths B.ProjectorPaths o with
    | error e => simp [loadStates, load, hr, hN]
    | ok h => simp [loadStates, load, hr, hN, newSyncLLM]
  · intro s hs
    cases hN : env.New (loadRelease w).calls B.ModelPath B.AdapterPaths B.ProjectorPaths o with
    | error e =>
      simp only [loadStates, hr, hN, List.mem_append, List.mem_cons, List.mem_singleton,
        List.not_mem_nil, or_false] at hs
      rcases hs with (hs | hs | hs | hs) | hs <;> subst hs <;>
        simp [syncLLM.Close, loadRelease, hr, clearSlot]
    | ok h =>
      simp only [loadStates, hr, hN, List.mem_append, List.mem_cons, List.mem_singleton,
        List.not_mem_nil, or_false] at hs
      rcases hs with (hs | hs | hs | hs) | hs | hs | hs | hs | hs <;> subst hs <;>
        simp [syncLLM.Close, loadRelease, hr, clearSlot, newSyncLLM, Function.update, hne]
  · intro hn T now
    cases hl : (load env w B o).2 with
    | none =>
      exact ⟨_, _, Load_reload_ok env w B o T now hn hl, refreshTimer_calls _ T now,
        refreshTimer_heap _ T now⟩
    | some e => exact ⟨_, _, Load_reload_error env w B o T now e hn hl, rfl, rfl⟩

/-- C6, at `afterLoadA` followed by `load` of `modelB`. -/
theorem C6_release_precedes_construction_witness :
    afterLoadA.loaded.runner = some 0 ∧ (0 : Nat) < afterLoadA.next ∧
    (load sampleEnv afterLoadA modelB opts1).1.calls =
      afterLoadA.calls ++ [Call.Close (afterLoadA.heap 0).llm, newCall modelB opts1] :=
  ⟨by decide, by decide,
    (C6_release_precedes_construction sampleEnv afterLoadA modelB opts1 0
      (by decide) (by decide)).1⟩

/-- C7: when `Load` needs a reload and the constructor fails with `e`, on a slot that is
either empty or holds a resource, `Load` returns the error `loadError env m e` and no slot
reference; the handle resident before is released (its `Close` is logged before the
constructor call and its wrapper is closed); the slot is left with handle, descriptor and
options all absent, so `Runner()` returns absent; and the next `Load`, of any
configuration, needs a reload and calls the constructor again. -/
theorem C7_failed_construction_empties_slot (env : Env) (w : World) (m : Model)
    (o : Options) (T : Duration) (now : Time) (e : GoError)
    (hn : needLoad w.loaded m o = some true)
    (hc : w.loaded.runner = none → w.loaded.Model = none ∧ w.loaded.Options = none)
    (he : env.New (loadRelease w).calls m.ModelPath m.AdapterPaths m.ProjectorPaths o
      = .error e) :
    ∃ w1, Load env w m o T now = some (w1, some (loadError env m e)) ∧
      w1.loaded.runner = none ∧ w1.loaded.Model = none ∧ w1.loaded.Options = none ∧
      State.Runner w1 = none ∧
      (∀ p, w.loaded.runner = some p →
        w1.calls = w.calls ++ [Call.Close (w.heap p).llm, newCall m o] ∧
        (w1.heap p).closed = true) ∧
      (w.loaded.runner = none → w1.calls = w.calls ++ [newCall m o]) ∧
      (∀ (m2 : Model) (o2 : Options) (T2 : Duration) (now2 : Time),
        needLoad w1.loaded m2 o2 = some true ∧
        ∃ w2 r, Load env w1 m2 o2 T2 now2 = some (w2, r) ∧
          w2.calls = w1.calls ++ [newCall m2 o2]) := by
  have hl := load_error env w m o e he
  have hrun : (load env w m o).1.loaded.runner = none := by
    rw [hl]; exact loadRelease_runner w
  refine ⟨(load env w m o).1, Load_reload_error env w m o T now _ hn (by rw [hl]), hrun,
    ?_, ?_, hrun, ?_, ?_, ?_⟩
  · rw [hl]; exact (loadRelease_cleared w hc).1
  · rw [hl]; exact (loadRelease_cleared w hc).2
  · intro p hp
    constructor
    · rw [load_calls, loadRelease_calls_resident w p hp]; simp
    · rw [hl]; exact loadRelease_heap_closed w p hp
  · intro hr
    rw [load_calls, loadRelease_empty w hr]
  · intro m2 o2 T2 now2
    have hn2 := needLoad_empty (load env w m o).1.loaded m2 o2 hrun
    refine ⟨hn2, ?_⟩
    have hc2 : (load env (load env w m o).1 m2 o2).1.calls
        = (load env w m o).1.calls ++ [newCall m2 o2] := by
      rw [load_calls, loadRelease_empty _ hrun]
    cases hl2 : (load env (load env w m o).1 m2 o2).2 with
    | none =>
      exact ⟨_, _, Load_reload_ok env _ m2 o2 T2 now2 hn2 hl2, by
        rw [refreshTimer_calls, hc2]⟩
    | some e2 => exact ⟨_, _, Load_reload_error env _ m2 o2 T2 now2 e2 hn2 hl2, hc2⟩

/-- C7, at `afterLoadA` followed by `Load` of `modelB` with a constructor that fails. -/
theorem C7_failed_construction_empties_slot_witness :
    needLoad afterLoadA.loaded modelB opts1 = some true ∧
    (afterLoadA.loaded.runner = none →
      afterLoadA.loaded.Model = none ∧ afterLoadA.loaded.Options = none) ∧
    flakyEnv.New (loadRelease afterLoadA).calls modelB.ModelPath modelB.AdapterPaths
      modelB.ProjectorPaths opts1 = .error (.errorf "out of memory") ∧
    ∃ w1, Load flakyEnv afterLoadA modelB opts1 5 101
        = some (w1, some (loadError flakyEnv modelB (.errorf "out of memory"))) ∧
      w1.loaded.runner = none ∧ w1.loaded.Model = none ∧ w1.loaded.Options = none ∧
      State.Runner w1 = none ∧
      (∀ p, afterLoadA.loaded.runner = some p →
        w1.calls = afterLoadA.calls ++ [Call.Close (afterLoadA.heap p).llm, newCall modelB opts1] ∧
        (w1.heap p).closed = true) ∧
      (afterLoadA.loaded.runner = none → w1.calls = afterLoadA.calls ++ [newCall modelB opts1]) ∧
      (∀ (m2 : Model) (o2 : Options) (T2 : Duration) (now2 : Time),
        needLoad w1.loaded m2 o2 = some true ∧
        ∃ w2 r, Load flakyEnv w1 m2 o2 T2 now2 = some (w2, r) ∧
          w2.calls = w1.calls ++ [newCall m2 o2]) :=
  ⟨by decide, by decide, rfl,
    C7_failed_construction_empties_slot flakyEnv afterLoadA modelB opts1 5 101
      (.errorf "out of memory") (by decide) (by decide) rfl⟩

/-- C8: after `Close()`, `Runner()` returns absent, the stored descriptor and options are
absent, `expireAt` is the zero time, and the timer, when there is one, is the same timer,
stopped; when a handle was resident, `Close()` logged exactly one `Close` of it and
nothing else, its wrapper is closed, and every read operation on it returns
`ErrLLMClosed`, at once and after any further run of operations. -/
theorem C8_close_empties_slot (env : Env) (w : World) :
    State.Runner (Close w) = none ∧
    (Close w).loaded.Model = none ∧
    (Close w).loaded.Options = none ∧
    (Close w).loaded.expireAt = 0 ∧
    (∀ t, w.loaded.expireTimer = some t →
      (Close w).loaded.expireTimer = some { id := t.id, deadline := none }) ∧
    (w.loaded.expireTimer = none → (Close w).loaded.expireTimer = none) ∧
    (w.loaded.runner = none → (Close w).calls = w.calls) ∧
    (∀ p, w.loaded.runner = some p →
      (Close w).calls = w.calls ++ [Call.Close (w.heap p).llm] ∧
      ((Close w).heap p).closed = true ∧
      (∀ (ctx : Context) (popts : PredictOpts) (s2 : String) (i : Slice Int),
        syncLLM.Predict env (Close w) p ctx popts = (Close w, ([], some ErrLLMClosed)) ∧
        syncLLM.Embedding env (Close w) p ctx s2 = (Close w, (none, some ErrLLMClosed)) ∧
        syncLLM.Encode env (Close w) p ctx s2 = (Close w, (none, some ErrLLMClosed)) ∧
        syncLLM.Decode env (Close w) p ctx i = (Close w, ("", some ErrLLMClosed))) ∧
      (p < w.next → ∀ (ops : List Op) (w1 : World), runOps env (Close w) ops = some w1 →
        ∀ (ctx : Context) (popts : PredictOpts) (s2 : String) (i : Slice Int),
          syncLLM.Predict env w1 p ctx popts = (w1, ([], some ErrLLMClosed)) ∧
          syncLLM.Embedding env w1 p ctx s2 = (w1, (none, some ErrLLMClosed)) ∧
          syncLLM.Encode env w1 p ctx s2 = (w1, (none, some ErrLLMClosed)) ∧
          syncLLM.Decode env w1 p ctx i = (w1, ("", some ErrLLMClosed)))) := by
  refine ⟨rfl, rfl, rfl, rfl, ?_, ?_, ?_, ?_⟩
  · intro t ht
    simp [Close, State.Close, clearSlot, Timer.Stop, ht]
    cases w.loaded.runner <;> simp [syncLLM_Close_loaded, ht]
  · intro ht
    simp [Close, State.Close, clearSlot, ht]
    cases w.loaded.runner <;> simp [syncLLM_Close_loaded, ht]
  · intro hr
    simp [Close, State.Close, clearSlot, hr]
  · intro p hr
    have hcl : ((Close w).heap p).closed = true := by
      simp [Close, State.Close, clearSlot, hr, syncLLM.Close]
    refine ⟨by simp [Close, State.Close, clearSlot, hr, syncLLM.Close], hcl,
      fun ctx popts s2 i => closed_reads_fail env _ p hcl ctx popts s2 i, ?_⟩
    intro hp ops w1 hrun ctx popts s2 i
    have hc : ClosedAt (Close w) p := ⟨by simpa [Close, State.Close, clearSlot, hr] using hp, hcl⟩
    exact closed_reads_fail env w1 p (ClosedAt_runOps env p ops _ w1 hc hrun).2 ctx popts s2 i

/-- C8, at `afterLoadA`, whose resident wrapper is at address `0`. -/
theorem C8_close_empties_slot_witness :
    afterLoadA.loaded.runner = some 0 ∧
    (Close afterLoadA).calls = afterLoadA.calls ++ [Call.Close (afterLoadA.heap 0).llm] ∧
    ((Close afterLoadA).heap 0).closed = true :=
  ⟨by decide,
    ((C8_close_empties_slot sampleEnv afterLoadA).2.2.2.2.2.2.2 0 (by decide)).1,
    ((C8_close_empties_slot sampleEnv afterLoadA).2.2.2.2.2.2.2 0 (by decide)).2.1⟩

/-- C9, as the claim states it, fails: after `Load` at `100` with a timeout of `5` and the
timer firing at `105`, the slot is empty with `expireAt` still `105`, and `Close()` sets
it to the zero time; after a `Load` whose constructor fails on a reload, the slot is empty
with the timer still armed, and `Close()` stops it. -/
theorem C9_close_changes_empty_slot :
    ((runOps sampleEnv World.init [.Load modelA opts1 5 100, .timerFire 105]).map
        (fun w => (w.loaded.runner, w.loaded.Model, w.loaded.Options, w.loaded.expireAt,
          (Close w).loaded.expireAt, decide ((Close w).loaded = w.loaded)))
      = some (none, none, none, 105, 0, false)) ∧
    ((runOps flakyEnv World.init [.Load modelA opts1 5 100, .Load modelB opts1 5 101]).map
        (fun w => (w.loaded.runner, w.loaded.Model, w.loaded.Options, w.loaded.expireTimer,
          (Close w).loaded.expireTimer, decide ((Close w).loaded = w.loaded)))
      = some (none, none, none, some { id := 0, deadline := some 105 },
          some { id := 0, deadline := none }, false)) :=
  ⟨rfl, rfl⟩

/-- C9, amended: on a slot that is already empty, `Close()` makes no call outside the
package, leaves the memory of wrappers as it is and handle, descriptor and options
absent, sets `expireAt` to the zero time and stops the timer; it leaves the whole state
unchanged when `expireAt` is already the zero time and the timer is absent or stopped;
and on every state, `Close(); Close()` ends in the same state, log included, as a single
`Close()`. -/
theorem C9_close_on_empty_slot (w : World) :
    (w.loaded.runner = none → w.loaded.Model = none → w.loaded.Options = none →
      (Close w).calls = w.calls ∧ (Close w).heap = w.heap ∧ (Close w).next = w.next ∧
      (Close w).loaded.runner = none ∧ (Close w).loaded.Model = none ∧
      (Close w).loaded.Options = none ∧ (Close w).loaded.expireAt = 0 ∧
      (Close w).loaded.expireTimer = w.loaded.expireTimer.map Timer.Stop ∧
      (w.loaded.expireAt = 0 → (∀ t, w.loaded.expireTimer = some t → t.deadline = none) →
        Close w = w)) ∧
    Close (Close w) = Close w := by
  constructor
  · intro hr hm ho
    refine ⟨by simp [Close, State.Close, clearSlot, hr], by simp [Close, State.Close, clearSlot, hr],
      by simp [Close, State.Close, clearSlot, hr], rfl, rfl, rfl, rfl,
      by simp [Close, State.Close, clearSlot, hr], ?_⟩
    intro he ht
    obtain ⟨heap, next, calls, timers, ⟨runner, expireAt, expireTimer, M, O⟩⟩ := w
    simp only at hr hm ho he ht
    subst hr hm ho he
    cases expireTimer with
    | none => rfl
    | some t =>
      obtain ⟨id, deadline⟩ := t
      have := ht _ rfl
      simp only at this
      subst this
      rfl
  · obtain ⟨heap, next, calls, timers, ⟨runner, expireAt, expireTimer, M, O⟩⟩ := w
    cases runner <;> cases expireTimer <;> rfl

/-- C9 amended, at the fresh process, whose slot is empty with a zero `expireAt` and no
timer. -/
theorem C9_close_on_empty_slot_witness :
    World.init.loaded.runner = none ∧ World.init.loaded.Model = none ∧
    World.init.loaded.Options = none ∧ World.init.loaded.expireAt = 0 ∧
    (∀ t, World.init.loaded.expireTimer = some t → t.deadline = none) ∧
    Close World.init = World.init :=
  ⟨by decide, by decide, by decide, by decide, by decide,
    ((C9_close_on_empty_slot World.init).1 (by decide) (by decide) (by decide)).2.2.2.2.2.2.2.2
      (by decide) (by decide)⟩

/-- C10: when the timer callback runs at `now` before `expireAt`, it changes nothing: no
release, the slot as it was, the timer untouched; when it runs at `now` not before
`expireAt`, it releases the resident handle if there is one (one `Close` logged, the
wrapper closed) and leaves handle, descriptor and options absent, without touching the
timer or `expireAt`. -/
theorem C10_timer_callback_guard (w : World) (now : Time) :
    (now < w.loaded.expireAt → timerCallback w now = w) ∧
    (w.loaded.expireAt ≤ now →
      (timerCallback w now).loaded.runner = none ∧
      (timerCallback w now).loaded.Model = none ∧
      (timerCallback w now).loaded.Options = none ∧
      (timerCallback w now).loaded.expireTimer = w.loaded.expireTimer ∧
      (timerCallback w now).loaded.expireAt = w.loaded.expireAt ∧
      (∀ p, w.loaded.runner = some p →
        (timerCallback w now).calls = w.calls ++ [Call.Close (w.heap p).llm] ∧
        ((timerCallback w now).heap p).closed = true) ∧
      (w.loaded.runner = none →
        (timerCallback w now).calls = w.calls ∧ (timerCallback w now).heap = w.heap)) := by
  constructor
  · intro h
    simp [timerCallback, h]
  · intro h
    have hnot : ¬ now < w.loaded.expireAt := not_lt.mpr h
    simp only [timerCallback, hnot, if_false]
    refine ⟨rfl, rfl, rfl, ?_, ?_, ?_, ?_⟩
    · cases w.loaded.runner <;> rfl
    · cases w.loaded.runner <;> rfl
    · intro p hr
      simp [hr, clearSlot, syncLLM.Close]
    · intro hr
      simp [hr, clearSlot]

/-- C10, at `afterLoadA` (deadline `105`): a callback at `104` and one at `105`. -/
theorem C10_timer_callback_guard_witness :
    ((104 : Time) < afterLoadA.loaded.expireAt ∧ timerCallback afterLoadA 104 = afterLoadA) ∧
    (afterLoadA.loaded.expireAt ≤ (105 : Time) ∧
      (timerCallback afterLoadA 105).loaded.runner = none) :=
  ⟨⟨by decide, (C10_timer_callback_guard afterLoadA 104).1 (by decide)⟩,
   ⟨by decide, ((C10_timer_callback_guard afterLoadA 105).2 (by decide)).1⟩⟩

/-! ## The idle timer -/

/-- C11, as the claim states it, fails at `t1 = t0`: after `Load` at `100` with a timeout of
`5` and a refresh at `100`, the resource is resident with the deadline `105`, and the
timer firing at `105`, the original deadline, evicts it. -/
theorem C11_fire_at_deadline_evicts :
    ((100 : Time) ≤ 100 ∧ (100 : Time) < 100 + 5) ∧
    ((runOps sampleEnv World.init [.Load modelA opts1 5 100, .ResetExpireTimer 5 100]).map
        (fun w => (w.loaded.runner, w.loaded.expireAt))
      = some (some 0, 105)) ∧
    ((runOps sampleEnv World.init
        [.Load modelA opts1 5 100, .ResetExpireTimer 5 100, .timerFire 105]).map
        (fun w => (w.loaded.runner, w.calls))
      = some (none, [newCall modelA opts1, Call.Close 1])) :=
  ⟨by decide, rfl, rfl⟩

/-- C11, amended: after a `Load` that returns normally at `t`, with or without a reload,
and after `ResetExpireTimer` at `t`, `expireAt` is `t + T`; and after a `Load` at `t0` and
a refresh at `t1`, by `ResetExpireTimer` or by a `Load` that returns normally, the timer
callback run at any `now` before `t1 + T` changes nothing, so the handle resident after
the refresh stays resident: the handle of the `Load` at `t0` when the refresh is
`ResetExpireTimer`, or the same `Load` again with `Runner` options deeply equal to
themselves; this covers the original deadline `t0 + T` when `t0 < t1`. -/
theorem C11_refresh_extends_deadline (env : Env) :
    (∀ (w w1 : World) (m : Model) (o : Options) (T : Duration) (t : Time),
      Load env w m o T t = some (w1, none) → w1.loaded.expireAt = t + T) ∧
    (∀ (w : World) (T : Duration) (t : Time),
      (State.ResetExpireTimer w T t).loaded.expireAt = t + T) ∧
    (∀ (w w1 : World) (m : Model) (o : Options) (T : Duration) (t0 t1 now : Time),
      Load env w m o T t0 = some (w1, none) → now < t1 + T →
      (∃ p, State.Runner w1 = some p) ∧
      timerCallback (State.ResetExpireTimer w1 T t1) now = State.ResetExpireTimer w1 T t1 ∧
      State.Runner (State.ResetExpireTimer w1 T t1) = State.Runner w1 ∧
      (∀ (m2 : Model) (o2 : Options) (w2 : World),
        Load env w1 m2 o2 T t1 = some (w2, none) →
        timerCallback w2 now = w2 ∧ ∃ p, State.Runner w2 = some p) ∧
      (deepEqualRunner o.Runner o.Runner = true →
        ∃ w2, Load env w1 m o T t1 = some (w2, none) ∧ timerCallback w2 now = w2 ∧
          State.Runner w2 = State.Runner w1)) ∧
    (∀ (w w1 : World) (m : Model) (o : Options) (T : Duration) (t0 t1 : Time),
      Load env w m o T t0 = some (w1, none) → t0 < t1 →
      timerCallback (State.ResetExpireTimer w1 T t1) (t0 + T)
        = State.ResetExpireTimer w1 T t1 ∧
      (∀ (m2 : Model) (o2 : Options) (w2 : World),
        Load env w1 m2 o2 T t1 = some (w2, none) → timerCallback w2 (t0 + T) = w2)) := by
  have stale : ∀ (w2 : World) (now : Time), now < w2.loaded.expireAt →
      timerCallback w2 now = w2 := by
    intro w2 now h
    simp [timerCallback, h]
  refine ⟨?_, fun w T t => rfl, ?_, ?_⟩
  · intro w w1 m o T t hL
    exact (Load_ok_resident env w w1 m o T t hL).2.2
  · intro w w1 m o T t0 t1 now hL hnow
    obtain ⟨hres, hnl, _⟩ := Load_ok_resident env w w1 m o T t0 hL
    refine ⟨hres, stale _ now hnow, rfl, ?_, ?_⟩
    · intro m2 o2 w2 hL2
      obtain ⟨hres2, _, hexp⟩ := Load_ok_resident env w1 w2 m2 o2 T t1 hL2
      exact ⟨stale w2 now (by rw [hexp]; exact hnow), hres2⟩
    · intro he
      refine ⟨refreshTimer w1 T t1, by simp [Load, hnl he], ?_, ?_⟩
      · exact stale _ now (by rw [refreshTimer_expireAt]; exact hnow)
      · simp [State.Runner, refreshTimer_runner]
  · intro w w1 m o T t0 t1 _ hlt
    have hlt2 : t0 + T < t1 + T := Int.add_lt_add_right hlt T
    refine ⟨stale _ (t0 + T) hlt2, ?_⟩
    intro m2 o2 w2 hL2
    obtain ⟨_, _, hexp⟩ := Load_ok_resident env w1 w2 m2 o2 T t1 hL2
    exact stale w2 (t0 + T) (by rw [hexp]; exact hlt2)

/-- C11 amended, at `Load` at `100`, a refresh at `101` and a callback at `105`. -/
theorem C11_refresh_extends_deadline_witness :
    Load sampleEnv World.init modelA opts1 5 100 = some (afterLoadA, none) ∧
    (100 : Time) < 101 ∧
    timerCallback (State.ResetExpireTimer afterLoadA 5 101) (100 + 5)
      = State.ResetExpireTimer afterLoadA 5 101 :=
  ⟨rfl, by decide,
    ((C11_refresh_extends_deadline sampleEnv).2.2.2 World.init afterLoadA modelA opts1 5 100 101
      rfl (by decide)).1⟩

/-! ## Invariants of the reachable states -/

/-- C12: in every state reached from the fresh process by a run of `Load` (returning
normally or with an error), `Close`, `ResetExpireTimer`, timer fires and callbacks, and
reads through handles, the handle, the descriptor and the options of the slot are all
absent or all present. -/
theorem C12_slot_coherent (env : Env) (ops : List Op) (w : World)
    (hr : runOps env World.init ops = some w) :
    (w.loaded.runner = none ∧ w.loaded.Model = none ∧ w.loaded.Options = none) ∨
    (∃ p m o, w.loaded.runner = some p ∧ w.loaded.Model = some m ∧
      w.loaded.Options = some o) :=
  Coherent_cases _ (Inv_runOps env ops World.init w Inv_init hr).1

/-- C12, at the run: `Load`, a `Load` whose constructor fails, `Close`. -/
theorem C12_slot_coherent_witness :
    runOps flakyEnv World.init [.Load modelA opts1 5 100, .Load modelB opts1 5 101, .Close]
      = some (Close (load flakyEnv afterLoadA modelB opts1).1) ∧
    ((Close (load flakyEnv afterLoadA modelB opts1).1).loaded.runner = none ∧
      (Close (load flakyEnv afterLoadA modelB opts1).1).loaded.Model = none ∧
      (Close (load flakyEnv afterLoadA modelB opts1).1).loaded.Options = none ∨
    ∃ p m o, (Close (load flakyEnv afterLoadA modelB opts1).1).loaded.runner = some p ∧
      (Close (load flakyEnv afterLoadA modelB opts1).1).loaded.Model = some m ∧
      (Close (load flakyEnv afterLoadA modelB opts1).1).loaded.Options = some o) :=
  ⟨rfl, C12_slot_coherent flakyEnv
    [.Load modelA opts1 5 100, .Load modelB opts1 5 101, .Close] _ rfl⟩

/-! ## Concurrency -/

/-- C13, at the failing input: two goroutines call `Load(modelA, opts1, 5)` on the empty
slot and both run the read section before either runs `load`; both see `needLoad` true,
both call the constructor, the second `load` closing the handle the first has just
built; both calls return normally.  Run one after the other, the two calls construct
once. -/
theorem C13_interleaved_loads_construct_twice :
    World.init.loaded.runner = none ∧
    ((runSchedule sampleEnv World.init twoLoads [0, 1, 0, 1, 0, 1]).map
        (fun r => (countNew r.1.calls, r.1.calls, r.2.map (fun c => c.phase)))
      = some (2, [newCall modelA opts1, Call.Close 1, newCall modelA opts1],
          [.returned none, .returned none])) ∧
    ((runSchedule sampleEnv World.init twoLoads [0, 0, 0, 1, 1, 1]).map
        (fun r => (countNew r.1.calls, r.2.map (fun c => c.phase)))
      = some (1, [.returned none, .returned none])) :=
  ⟨rfl, rfl, rfl⟩

/-- C14, refuted on the code: the first mutex call of every `Load` is `mu.RLock`, and
`load` starts with `mu.Lock`; so a `Load` called by a goroutine that holds `mu` as a
writer blocks at once, and a `Load` that needs a reload, called by a goroutine that holds
`mu` as a reader, blocks in `load`; with `mu` free the same call runs through and leaves
the mutexes free. -/
theorem C14_load_locks_mu_itself (env : Env) (w : World) (m : Model) (o : Options) :
    LockEv.RLock .mu ∈ LoadLocks env w m o ∧
    LockEv.Lock .mu ∈ loadLocks w ∧
    lockRun muWriteHeld (LoadLocks env w m o) = none ∧
    lockRun muReadHeld (LoadLocks sampleEnv World.init modelA opts1) = none ∧
    lockRun Locks.free (LoadLocks sampleEnv World.init modelA opts1) = some Locks.free := by
  obtain ⟨rest, hrest⟩ := LoadLocks_head env w m o
  refine ⟨by rw [hrest]; exact List.mem_cons_self _ _, by simp [loadLocks], ?_, by decide,
    by decide⟩
  rw [hrest]
  rfl

/-- C15, at the failing input: the constructor fails with an error that wraps
`llm.ErrUnsupportedFormat` and whose message does not contain "failed to load model";
`errors.Is` with the arguments in the order of the source is false, and `Load` returns
the error itself, without the hint. -/
theorem C15_wrapped_unsupported_returned_unchanged :
    errorsIs wrappedUnsupported unsupportedEnv.ErrUnsupportedFormat = true ∧
    errorsIs unsupportedEnv.ErrUnsupportedFormat wrappedUnsupported = false ∧
    stringsContains wrappedUnsupported.Error "failed to load model" = false ∧
    loadError unsupportedEnv modelA wrappedUnsupported = wrappedUnsupported ∧
    (Load unsupportedEnv World.init modelA opts1 5 100).map (fun r => r.2)
      = some (some wrappedUnsupported) := by
  decide

/-- C17: in the mutex calls of every operation (`Load`, `State.Close`,
`ResetExpireTimer`, the timer callback, the reads), of `Runner` and of `load`, started in
any world: whenever `mu` and `tmu` are held together `mu` was acquired first, and no call
acquires `mu`, shared or exclusive, while `tmu` is held. -/
theorem C17_mu_before_tmu (env : Env) (w : World) (op : Op) :
    ((heldStates [] (op.locks env w)).all muFirst = true ∧
      noMuUnderTmu [] (op.locks env w) = true) ∧
    ((heldStates [] State.RunnerLocks).all muFirst = true ∧
      noMuUnderTmu [] State.RunnerLocks = true) ∧
    ((heldStates [] (loadLocks w)).all muFirst = true ∧
      noMuUnderTmu [] (loadLocks w) = true) := by
  refine ⟨?_, by decide, loadLocks_order w⟩
  cases op with
  | Load model opts d now => exact LoadLocks_order env w model opts
  | Close => exact State_CloseLocks_order w
  | ResetExpireTimer d now => exact ⟨rfl, rfl⟩
  | timerFire now => exact timerCallbackLocks_order w now
  | timerCallback now => exact timerCallbackLocks_order w now
  | Predict s ctx opts => exact ⟨rfl, rfl⟩
  | Embedding s ctx s2 => exact ⟨rfl, rfl⟩
  | Encode s ctx s2 => exact ⟨rfl, rfl⟩
  | Decode s ctx i => exact ⟨rfl, rfl⟩

/-! ## The timer, the wrappers and `needLoad` in the reachable states -/

/-- C16: every operation keeps the timer the slot holds (the same timer, no new one
created), except a `Load` that returns normally on a slot without a timer, which creates
it; a `Load` that returns normally leaves the slot with a timer armed for its timeout,
the one that was there when there was one; a `Load` that returns an error, `Close` and
`ResetExpireTimer` create none, `Close` leaving the timer there is stopped; so in every
state reached from the fresh process there is no timer and none was ever created, or
the slot holds the first and only timer created. -/
theorem C16_single_timer (env : Env) :
    (∀ (w w1 : World) (op : Op), op.apply env w = some w1 →
      (timerId w1 = timerId w ∧ w1.timers = w.timers) ∨
      (∃ m o d now, op = .Load m o d now ∧ Load env w m o d now = some (w1, none) ∧
        timerId w = none ∧ timerId w1 = some w.timers ∧ w1.timers = w.timers + 1)) ∧
    (∀ (w w1 : World) (m : Model) (o : Options) (d : Duration) (now : Time),
      Load env w m o d now = some (w1, none) →
      ∃ t, w1.loaded.expireTimer = some t ∧ t.deadline = some (timerWhen now d) ∧
        (∀ t0, w.loaded.expireTimer = some t0 → t.id = t0.id ∧ w1.timers = w.timers) ∧
        (w.loaded.expireTimer = none → t.id = w.timers ∧ w1.timers = w.timers + 1)) ∧
    (∀ (w : World) (t : Timer), w.loaded.expireTimer = some t →
      (Close w).loaded.expireTimer = some { id := t.id, deadline := none }) ∧
    (∀ (w : World) (d : Duration) (now : Time), w.loaded.expireTimer = none →
      (State.ResetExpireTimer w d now).loaded.expireTimer = none ∧
      (State.ResetExpireTimer w d now).timers = w.timers) ∧
    (∀ (ops : List Op) (w : World), runOps env World.init ops = some w →
      (w.loaded.expireTimer = none ∧ w.timers = 0) ∨
      (∃ t, w.loaded.expireTimer = some t ∧ t.id = 0 ∧ w.timers = 1)) := by
  refine ⟨timer_apply env, ?_, ?_, ?_, ?_⟩
  · intro w w1 m o d now hL
    obtain ⟨h1, h2⟩ := Load_ok_timer env w w1 m o d now hL
    refine ⟨_, h1, rfl, ?_, ?_⟩
    · intro t0 ht; rw [ht] at h2; exact ⟨by simp [ht], h2⟩
    · intro ht; rw [ht] at h2; exact ⟨by simp [ht], h2⟩
  · intro w t ht
    rw [(Close_timer w).1, ht]; rfl
  · intro w d now ht
    exact ⟨by simp [State.ResetExpireTimer, ht], rfl⟩
  · intro ops w hr
    rcases timer_runOps env ops World.init w (Or.inl ⟨rfl, rfl⟩) hr with ⟨h1, h2⟩ | ⟨h1, h2⟩
    · left
      refine ⟨?_, h2⟩
      cases ht : w.loaded.expireTimer with
      | none => rfl
      | some t => simp [timerId, ht] at h1
    · right
      cases ht : w.loaded.expireTimer with
      | none => simp [timerId, ht] at h1
      | some t =>
        simp only [timerId, ht, Option.map_some', Option.some.injEq] at h1
        exact ⟨t, rfl, h1, h2⟩

/-- C16, at the run: `Load`, `Close`, `Load` of another model. -/
theorem C16_single_timer_witness :
    runOps sampleEnv World.init [.Load modelA opts1 5 100, .Close, .Load modelB opts1 7 200]
      = some (refreshTimer (load sampleEnv (Close afterLoadA) modelB opts1).1 7 200) ∧
    (((refreshTimer (load sampleEnv (Close afterLoadA) modelB opts1).1 7 200).loaded.expireTimer
        = none ∧
      (refreshTimer (load sampleEnv (Close afterLoadA) modelB opts1).1 7 200).timers = 0) ∨
    ∃ t, (refreshTimer (load sampleEnv (Close afterLoadA) modelB opts1).1 7 200).loaded.expireTimer
        = some t ∧ t.id = 0 ∧
      (refreshTimer (load sampleEnv (Close afterLoadA) modelB opts1).1 7 200).timers = 1) :=
  ⟨rfl, (C16_single_timer sampleEnv).2.2.2.2
    [.Load modelA opts1 5 100, .Close, .Load modelB opts1 7 200] _ rfl⟩

/-- C18: in every state reached from the fresh process by a run of operations, a wrapper
the registry has created (an address below `next`) is open exactly when it is the handle
the slot holds; and the handle the slot holds is a created wrapper that is open. -/
theorem C18_resident_iff_open (env : Env) (ops : List Op) (w : World)
    (hr : runOps env World.init ops = some w) :
    (∀ p, p < w.next → ((w.heap p).closed = false ↔ w.loaded.runner = some p)) ∧
    (∀ p, w.loaded.runner = some p → p < w.next ∧ (w.heap p).closed = false) := by
  obtain ⟨_, ha, hb⟩ := Inv_runOps env ops World.init w Inv_init hr
  exact ⟨hb, fun p hp => ⟨ha p hp, (hb p (ha p hp)).mpr hp⟩⟩

/-- C18, at the run: `Load` of `modelA`, then `Load` of `modelB`; the first wrapper is
closed and the second is the resident one. -/
theorem C18_resident_iff_open_witness :
    runOps sampleEnv World.init [.Load modelA opts1 5 100, .Load modelB opts1 5 101]
      = some (refreshTimer (load sampleEnv afterLoadA modelB opts1).1 5 101) ∧
    (∀ p, p < (refreshTimer (load sampleEnv afterLoadA modelB opts1).1 5 101).next →
      (((refreshTimer (load sampleEnv afterLoadA modelB opts1).1 5 101).heap p).closed = false ↔
        (refreshTimer (load sampleEnv afterLoadA modelB opts1).1 5 101).loaded.runner = some p)) :=
  ⟨rfl, (C18_resident_iff_open sampleEnv
    [.Load modelA opts1 5 100, .Load modelB opts1 5 101] _ rfl).1⟩

/-- C19: in every state reached from the fresh process by a run of operations, for every
model and options, `needLoad` evaluates without a nil dereference and `Load` returns; the
stored descriptor and options are present whenever the handle is; and on any slot without
a handle `needLoad` is true without reading the stored descriptor or options. -/
theorem C19_needLoad_nil_safe (env : Env) (ops : List Op) (w : World)
    (hr : runOps env World.init ops = some w) (m : Model) (o : Options) :
    (∃ b, needLoad w.loaded m o = some b) ∧
    (∀ (d : Duration) (now : Time), ∃ w1 r, Load env w m o d now = some (w1, r)) ∧
    (∀ p, w.loaded.runner = some p →
      ∃ m0 o0, w.loaded.Model = some m0 ∧ w.loaded.Options = some o0) ∧
    (∀ s : State, s.runner = none → needLoad s m o = some true) := by
  have hinv := Inv_runOps env ops World.init w Inv_init hr
  obtain ⟨b, hb⟩ := needLoad_of_Coherent w.loaded m o hinv.1
  refine ⟨⟨b, hb⟩, fun d now => Load_total env w m o d now b hb, ?_,
    fun s hs => needLoad_empty s m o hs⟩
  intro p hp
  rcases Coherent_cases _ hinv.1 with ⟨hn, _, _⟩ | ⟨_, m0, o0, _, hm, ho⟩
  · rw [hn] at hp; cases hp
  · exact ⟨m0, o0, hm, ho⟩

/-- C19, at the run: `Load`, then the timer firing at the deadline; the slot is empty and
`needLoad` is true. -/
theorem C19_needLoad_nil_safe_witness :
    runOps sampleEnv World.init [.Load modelA opts1 5 100, .timerFire 105]
      = timerFire afterLoadA 105 ∧
    timerFire afterLoadA 105 = some (timerCallback
      { afterLoadA with loaded :=
          { afterLoadA.loaded with expireTimer := some { id := 0, deadline := none } } } 105) ∧
    ∃ b, needLoad (timerCallback
      { afterLoadA with loaded :=
          { afterLoadA.loaded with expireTimer := some { id := 0, deadline := none } } }
      105).loaded modelB opts2 = some b :=
  ⟨rfl, rfl, (C19_needLoad_nil_safe sampleEnv [.Load modelA opts1 5 100, .timerFire 105] _
    rfl modelB opts2).1⟩

end OllamaState
